import Mathlib

set_option linter.unusedVariables false
set_option maxHeartbeats 4000000

namespace SimpleChat

/-- Python 2 `list.remove`: drop the first occurrence, `none` (ValueError) when absent. -/
def pyRemove {α : Type} [DecidableEq α] (x : α) : List α → Option (List α)
  | [] => none
  | y :: ys => if y = x then some ys else (pyRemove x ys).map (fun l => y :: l)

/-- Drop the first occurrence when present, identity otherwise
(Python `del d[k]` guarded by `if k in d`, or `remove` under `try ... except ValueError: pass`). -/
def removeFirst {α : Type} [DecidableEq α] (x : α) : List α → List α
  | [] => []
  | y :: ys => if y = x then ys else y :: removeFirst x ys

/-- Association-list lookup (Python dict indexing / `in` test). -/
def alookup {α β : Type} [DecidableEq α] (k : α) : List (α × β) → Option β
  | [] => none
  | p :: ps => if p.1 = k then some p.2 else alookup k ps

/-- Replace the value bound to a key (no-op when the key is absent). -/
def aset {α β : Type} [DecidableEq α] (k : α) (v : β) : List (α × β) → List (α × β)
  | [] => []
  | p :: ps => if p.1 = k then (k, v) :: ps else p :: aset k v ps

/-- Remove the binding of a key (Python `del d[k]` once the key is known present). -/
def adel {α β : Type} [DecidableEq α] (k : α) : List (α × β) → List (α × β)
  | [] => []
  | p :: ps => if p.1 = k then ps else p :: adel k ps

/-- Core of Python 2 `string.split(s, sep, maxsplit)` for a one-character separator:
split at each occurrence of `sep` (runs of separators produce empty chunks), at most
`n` splits, accumulating the current chunk in reversed form in `acc`. -/
def splitLimitAux (sep : Char) : List Char → Nat → List Char → List (List Char)
  | [], _, acc => [acc.reverse]
  | c :: cs, 0, acc => splitLimitAux sep cs 0 (c :: acc)
  | c :: cs, Nat.succ m, acc =>
      if c = sep then acc.reverse :: splitLimitAux sep cs m []
      else splitLimitAux sep cs (Nat.succ m) (c :: acc)

/-- Python 2 `string.split(s, ' ', maxsplit)` as used in `ChatRoomLogic.handle_client_data`. -/
def pySplitSpace (s : String) (maxsplit : Nat) : List String :=
  (splitLimitAux ' ' s.data maxsplit []).map String.mk

/-- Reference to a `ChatRoomLogic` instance: the distinguished hall (`mainroom`) or a
user-created room stored in the server's room registry under its name. -/
inductive RoomRef where
  | hall : RoomRef
  | user : String → RoomRef
deriving DecidableEq

/-- Reference to a `ChatLogic` a session can be bound to. -/
inductive LogicRef where
  | nameMgr : LogicRef
  | roomL : RoomRef → LogicRef
deriving DecidableEq

/-- Instrumentation of the logic lifecycle calls made by `ChatSession.change_logic`. -/
inductive LKind where
  | enter : LogicRef → LKind
  | leave : LogicRef → LKind
  | quitNotify : LKind
deriving DecidableEq

/-- Python exceptions that can escape the data handlers. -/
inductive PyExn where
  | indexError : PyExn
  | valueError : PyExn
  | attributeError : PyExn
deriving DecidableEq

/-- Per-session state of a `ChatSession` object: its display name and current logic. -/
structure SessionSt where
  username : String
  logic : Option LogicRef
deriving DecidableEq

/-- Whole-system state: the `ChatServer` with its logics, registries and sessions.
`output` records every `push` as `(session id, text)` in order; `ltrace` records the
enter/leave/quit-notification calls issued by `change_logic`, in order. -/
structure ServerState where
  sname : String
  now : String
  hallMembers : List Nat
  rooms : List (String × List Nat)
  clientnames : List String
  sessions : List (Nat × SessionSt)
  allsessions : List Nat
  output : List (Nat × String)
  ltrace : List (Nat × LKind)
deriving DecidableEq

/-- The hall room's name: `self.__name + ' Hall'` in `ChatServer.__chatlogic_init`. -/
def hallName (st : ServerState) : String := st.sname ++ " Hall"

/-- `chatsession.push(text)`. -/
def push (st : ServerState) (sid : Nat) (text : String) : ServerState :=
  { st with output := st.output ++ [(sid, text)] }

/-- Record one logic lifecycle call in the instrumentation trace. -/
def addEv (st : ServerState) (sid : Nat) (k : LKind) : ServerState :=
  { st with ltrace := st.ltrace ++ [(sid, k)] }

/-- The `ChatSession` object for a session id (default used only for absent ids). -/
def sessionOf (st : ServerState) (sid : Nat) : SessionSt :=
  (alookup sid st.sessions).getD { username := "anonymous", logic := none }

/-- `chatsession.username`. -/
def usernameOf (st : ServerState) (sid : Nat) : String := (sessionOf st sid).username

/-- `chatsession.__logic`. -/
def logicOf (st : ServerState) (sid : Nat) : Option LogicRef := (sessionOf st sid).logic

/-- Assign `chatsession.__logic`. -/
def setLogic (st : ServerState) (sid : Nat) (l : Option LogicRef) : ServerState :=
  { st with sessions :=
      st.sessions.map (fun p => if p.1 = sid then (p.1, { p.2 with logic := l }) else p) }

/-- Assign `chatsession.username`. -/
def setUsername (st : ServerState) (sid : Nat) (u : String) : ServerState :=
  { st with sessions :=
      st.sessions.map (fun p => if p.1 = sid then (p.1, { p.2 with username := u }) else p) }

/-- `self.__name` of a `ChatRoomLogic`. -/
def roomName (st : ServerState) : RoomRef → String
  | RoomRef.hall => hallName st
  | RoomRef.user n => n

/-- `self.__sessions` of a `ChatRoomLogic` (empty for a room absent from the registry). -/
def roomMembers (st : ServerState) : RoomRef → List Nat
  | RoomRef.hall => st.hallMembers
  | RoomRef.user n => (alookup n st.rooms).getD []

/-- Replace a room's member list. -/
def setRoomMembers (st : ServerState) (r : RoomRef) (l : List Nat) : ServerState :=
  match r with
  | RoomRef.hall => { st with hallMembers := l }
  | RoomRef.user n => { st with rooms := aset n l st.rooms }

/-- `ChatRoomLogic.__broadcast`: push `words + '\n'` to every member, in member-list order. -/
def broadcast (st : ServerState) (r : RoomRef) (words : String) : ServerState :=
  { st with output := st.output ++ (roomMembers st r).map (fun sid => (sid, words ++ "\n")) }

/-- The formatted line of `ChatRoomLogic.__broadcast_user_state` (before the broadcast newline). -/
def stateNotice (st : ServerState) (sid : Nat) (state : String) : String :=
  st.now ++ ": \"" ++ usernameOf st sid ++ "\" " ++ state ++ "."

/-- `ChatRoomLogic.__broadcast_user_state`. -/
def broadcastUserState (st : ServerState) (r : RoomRef) (sid : Nat) (state : String) : ServerState :=
  broadcast st r (stateNotice st sid state)

/-- `ChatRoomLogic.handle_client_enter`: append to member list, welcome line, enter notice. -/
def roomEnter (st : ServerState) (r : RoomRef) (sid : Nat) : ServerState :=
  broadcastUserState
    (push (setRoomMembers st r (roomMembers st r ++ [sid])) sid
      ("Welcome to " ++ roomName st r ++ "\n"))
    r sid "enters room"

/-- `ChatRoomLogic.handle_client_leave`: `self.__sessions.remove(chatsession)` (ValueError
when absent), then broadcast the leave notice to the remaining members. -/
def roomLeave (st : ServerState) (r : RoomRef) (sid : Nat) : Except PyExn ServerState :=
  match pyRemove sid (roomMembers st r) with
  | none => Except.error PyExn.valueError
  | some l => Except.ok (broadcastUserState (setRoomMembers st r l) r sid "leaves room")

/-- `UserNameLogic.handle_client_enter`. -/
def nameEnter (st : ServerState) (sid : Nat) : ServerState :=
  push st sid ("Welcome to " ++ st.sname ++ "\nPlease input your user name >")

/-- `ChatServer.user_quit`: `UserNameLogic.user_quit` (delete the session's username from
the client-name dict if present) then remove the session from `__allsessions`
(`except ValueError: pass`). -/
def user_quit (st : ServerState) (sid : Nat) : ServerState :=
  { st with clientnames := removeFirst (usernameOf st sid) st.clientnames,
            allsessions := removeFirst sid st.allsessions }

/-- First phase of `ChatSession.change_logic`: when a logic is bound, invoke its
`handle_client_leave` (a no-op for `UserNameLogic`, member removal plus leave notice
for `ChatRoomLogic`). -/
def changeLeaveStage (st : ServerState) (sid : Nat) : Except PyExn ServerState :=
  match logicOf st sid with
  | none => Except.ok st
  | some LogicRef.nameMgr => Except.ok (addEv st sid (LKind.leave LogicRef.nameMgr))
  | some (LogicRef.roomL r) => roomLeave (addEv st sid (LKind.leave (LogicRef.roomL r))) r sid

/-- Last phase of `ChatSession.change_logic` (after the binding was set): invoke the new
logic's `handle_client_enter`, or `self.__server.user_quit(self)` when the new logic is None. -/
def changeEnterStage (st2 : ServerState) (sid : Nat) (newl : Option LogicRef) : ServerState :=
  match newl with
  | some LogicRef.nameMgr => nameEnter (addEv st2 sid (LKind.enter LogicRef.nameMgr)) sid
  | some (LogicRef.roomL r) => roomEnter (addEv st2 sid (LKind.enter (LogicRef.roomL r))) r sid
  | none => user_quit (addEv st2 sid LKind.quitNotify) sid

/-- `ChatSession.change_logic`: leave the old logic first (when bound), set the binding,
then enter the new logic, or notify the server via `user_quit` when the new logic is None. -/
def change_logic (st : ServerState) (sid : Nat) (newl : Option LogicRef) : Except PyExn ServerState :=
  match changeLeaveStage st sid with
  | Except.error e => Except.error e
  | Except.ok st1 => Except.ok (changeEnterStage (setLogic st1 sid newl) sid newl)

/-- `ChatServer.add_room`: insert an empty room unless the name is already registered. -/
def add_room (st : ServerState) (roomname : String) : ServerState :=
  match alookup roomname st.rooms with
  | some _ => st
  | none => { st with rooms := st.rooms ++ [(roomname, [])] }

/-- `ChatRoomLogic._do_quit`. -/
def do_quit (st : ServerState) (r : RoomRef) (sid : Nat) (args : List String) :
    Except PyExn ServerState :=
  change_logic (push st sid "Bye!\n") sid none

/-- `ChatRoomLogic._do_who`: push each member's username to the issuer, in member order. -/
def do_who (st : ServerState) (r : RoomRef) (sid : Nat) (args : List String) :
    Except PyExn ServerState :=
  Except.ok { st with output :=
    st.output ++ (roomMembers st r).map (fun m => (sid, usernameOf st m ++ "\n")) }

/-- `ChatRoomLogic._do_addroom`: `args[0]` raises IndexError when no argument was given. -/
def do_addroom (st : ServerState) (r : RoomRef) (sid : Nat) (args : List String) :
    Except PyExn ServerState :=
  match args with
  | [] => Except.error PyExn.indexError
  | roomname :: _ =>
      Except.ok (push (add_room st roomname) sid
        ("Info: add new room \"" ++ roomname ++ "\"\n"))

/-- `ChatRoomLogic._do_gotoroom`: look the room up (any failure pushes the error line),
else rebind the issuing session to it. -/
def do_gotoroom (st : ServerState) (r : RoomRef) (sid : Nat) (args : List String) :
    Except PyExn ServerState :=
  match args with
  | [] => Except.error PyExn.indexError
  | roomname :: _ =>
      match alookup roomname st.rooms with
      | none => Except.ok (push st sid "Error: no such room.\n")
      | some _ => change_logic st sid (some (LogicRef.roomL (RoomRef.user roomname)))

/-- `ChatRoomLogic._do_delroom` together with `ChatServer.del_room`: KeyError when the
room is absent, DeleteNonEmptyRoomError when it has members, else delete it. -/
def do_delroom (st : ServerState) (r : RoomRef) (sid : Nat) (args : List String) :
    Except PyExn ServerState :=
  match args with
  | [] => Except.error PyExn.indexError
  | roomname :: _ =>
      match alookup roomname st.rooms with
      | none => Except.ok (push st sid ("Error: no such room \"" ++ roomname ++ "\"\n"))
      | some members =>
          if members = [] then
            Except.ok (push { st with rooms := adel roomname st.rooms } sid
              ("Info: delete room \"" ++ roomname ++ "\"\n"))
          else
            Except.ok (push st sid
              ("Error: room \"" ++ roomname ++ "\" is not empty, can not delete it\n"))

/-- `ChatRoomLogic._do_roomlist`: header, one line per registry entry, footer. -/
def do_roomlist (st : ServerState) (r : RoomRef) (sid : Nat) (args : List String) :
    Except PyExn ServerState :=
  Except.ok { st with output :=
    (st.output ++ [(sid, "Info: room list\n")]
      ++ st.rooms.map (fun p => (sid, "\t " ++ p.1 ++ "\n"))
      ++ [(sid, "room list over\n")]) }

/-- `ChatRoomLogic._do_hall`. -/
def do_hall (st : ServerState) (r : RoomRef) (sid : Nat) (args : List String) :
    Except PyExn ServerState :=
  change_logic st sid (some (LogicRef.roomL RoomRef.hall))

/-- The static usage text of `ChatRoomLogic._do_help`. -/
def helpText : String :=
  "Info: action list\n/addroom room_name\n\tAdd a new room\n/delroom room_name\n\tDelete the room\n/gotoroom room_name\n\tGoto another room\n/hall\n\tGoto EdChat Hall\n/help\n\tShow this help\n/quit\n\tQuit EdChat\n/roomlist\n\tShow all rooms\n/who\n\tShow all room members\n"

/-- `ChatRoomLogic._do_help`. -/
def do_help (st : ServerState) (r : RoomRef) (sid : Nat) (args : List String) :
    Except PyExn ServerState :=
  Except.ok (push st sid helpText)

/-- Whether `'_do_' + action` resolves via `getattr` on `ChatRoomLogic`. -/
def knownAction (a : String) : Bool :=
  a = "quit" || a = "who" || a = "addroom" || a = "gotoroom" || a = "delroom" ||
  a = "roomlist" || a = "hall" || a = "help"

/-- `ChatRoomLogic.__dispatch_client_action`, including the `UnknownActionError`
handler of `handle_client_data` (push the error line to the issuer only). -/
def dispatchAction (st : ServerState) (r : RoomRef) (sid : Nat) (action : String)
    (args : List String) : Except PyExn ServerState :=
  if action = "quit" then do_quit st r sid args
  else if action = "who" then do_who st r sid args
  else if action = "addroom" then do_addroom st r sid args
  else if action = "gotoroom" then do_gotoroom st r sid args
  else if action = "delroom" then do_delroom st r sid args
  else if action = "roomlist" then do_roomlist st r sid args
  else if action = "hall" then do_hall st r sid args
  else if action = "help" then do_help st r sid args
  else Except.ok (push st sid ("Error: unknown action: " ++ action ++ "\n"))

/-- `ChatRoomLogic.handle_client_data`: empty line is ignored; a leading `/` dispatches
on `string.split(data[1:], ' ', 5)`; anything else is broadcast as a says-message.
(The split result is never the empty list; that branch is unreachable.) -/
def roomData (st : ServerState) (r : RoomRef) (sid : Nat) (data : String) :
    Except PyExn ServerState :=
  if data = "" then Except.ok st
  else if data.data.head? = some '/' then
    match pySplitSpace (String.mk data.data.tail) 5 with
    | [] => Except.ok st
    | action :: rest => dispatchAction st r sid action rest
  else
    Except.ok (broadcast st r
      (st.now ++ ": \"" ++ usernameOf st sid ++ "\" says:\n" ++ data ++ "\n"))

/-- `UserNameLogic.handle_client_data`: empty line re-prompts; a taken name pushes the
error and re-prompt; otherwise register the name, set the display name and rebind to
the configured next room (the hall). -/
def nameData (st : ServerState) (sid : Nat) (data : String) : Except PyExn ServerState :=
  if data = "" then Except.ok (push st sid "Please input your user name >")
  else if data ∈ st.clientnames then
    Except.ok (push st sid "Error: name exists.\nPlease input your user name>")
  else
    change_logic (setUsername { st with clientnames := st.clientnames ++ [data] } sid data)
      sid (some (LogicRef.roomL RoomRef.hall))

/-- `ChatSession.found_terminator` dispatching one complete line to the bound logic. -/
def submit_line (st : ServerState) (sid : Nat) (line : String) : Except PyExn ServerState :=
  match logicOf st sid with
  | none => Except.error PyExn.attributeError
  | some LogicRef.nameMgr => nameData st sid line
  | some (LogicRef.roomL r) => roomData st r sid line

/-- `ChatServer.handle_accept`: create the session, retain it, bind it to NameSelection. -/
def on_connect (st : ServerState) (sid : Nat) : Except PyExn ServerState :=
  change_logic
    { st with sessions := st.sessions ++ [(sid, { username := "anonymous", logic := none })],
              allsessions := st.allsessions ++ [sid] }
    sid (some LogicRef.nameMgr)

/-- External events driving the system. -/
inductive Ev where
  | connect : Nat → Ev
  | line : Nat → String → Ev
  | disconnect : Nat → Ev
  | tick : String → Ev
deriving DecidableEq

/-- One event step of the whole system. -/
def step (st : ServerState) : Ev → Except PyExn ServerState
  | Ev.connect sid => on_connect st sid
  | Ev.line sid d => submit_line st sid d
  | Ev.disconnect sid => change_logic st sid none
  | Ev.tick t => Except.ok { st with now := t }

/-- Transport-level well-formedness of an event: connections get fresh ids, and lines
or disconnects only arrive on sessions whose socket is still open (logic bound). -/
def wfEv (st : ServerState) : Ev → Bool
  | Ev.connect sid => (alookup sid st.sessions).isNone
  | Ev.line sid _ => (logicOf st sid).isSome
  | Ev.disconnect sid => (logicOf st sid).isSome
  | Ev.tick _ => true

/-- The server state right after `ChatServer.__init__`. -/
def initState (nm : String) : ServerState :=
  { sname := nm, now := "", hallMembers := [], rooms := [], clientnames := [], sessions := [], allsessions := [], output := [], ltrace := [] }

/-- Reachable server states: the initial state, closed under well-formed events whose
handling raises no exception. -/
inductive Reach : ServerState → Prop where
  | start : ∀ nm, Reach (initState nm)
  | next : ∀ st e st', Reach st → wfEv st e = true → step st e = Except.ok st' → Reach st'

/-- Run one event, keeping the old state on an exception (used to build concrete runs). -/
def stepD (st : ServerState) (e : Ev) : ServerState :=
  match step st e with
  | Except.ok st' => st'
  | Except.error _ => st

/-- Run a list of events. -/
def runD (st : ServerState) (evs : List Ev) : ServerState := evs.foldl stepD st

/-- The sub-trace of lifecycle events concerning one session. -/
def subtrace (sid : Nat) (tr : List (Nat × LKind)) : List LKind :=
  (tr.filter (fun p => p.1 = sid)).map Prod.snd

/-- Protocol automaton for one session's lifecycle trace: `none` marks a violation;
entering requires being unbound, leaving requires leaving exactly the bound logic,
and the quit notification requires the binding to have been cleared. -/
def applyLEv : Option (Option LogicRef) → LKind → Option (Option LogicRef)
  | none, _ => none
  | some curr, LKind.enter l => if curr = none then some (some l) else none
  | some curr, LKind.leave l => if curr = some l then some none else none
  | some curr, LKind.quitNotify => if curr = none then some none else none

/-- Play a lifecycle trace from the unbound state. -/
def tracePlay (evs : List LKind) : Option (Option LogicRef) :=
  evs.foldl applyLEv (some none)

instance {ε α : Type} [DecidableEq ε] [DecidableEq α] : DecidableEq (Except ε α) :=
  fun x y =>
    match x, y with
    | Except.ok a, Except.ok b =>
        if h : a = b then isTrue (by rw [h]) else isFalse (by intro hh; cases hh; exact h rfl)
    | Except.error e, Except.error f =>
        if h : e = f then isTrue (by rw [h]) else isFalse (by intro hh; cases hh; exact h rfl)
    | Except.ok a, Except.error f => isFalse (by intro hh; cases hh)
    | Except.error e, Except.ok b => isFalse (by intro hh; cases hh)

theorem removeFirst_sublist {α : Type} [DecidableEq α] (x : α) (l : List α) :
    List.Sublist (removeFirst x l) l := by
  induction l with
  | nil => simp [removeFirst]
  | cons y ys ih =>
      by_cases h : y = x
      · simp only [removeFirst, if_pos h]
        exact List.sublist_cons_self y ys
      · simp only [removeFirst, if_neg h]
        exact List.Sublist.cons₂ y ih

theorem removeFirst_of_not_mem {α : Type} [DecidableEq α] {x : α} {l : List α}
    (h : x ∉ l) : removeFirst x l = l := by
  induction l with
  | nil => simp [removeFirst]
  | cons y ys ih =>
      simp only [List.mem_cons, not_or] at h
      simp [removeFirst, Ne.symm h.1, ih h.2]

theorem count_removeFirst_self {α : Type} [DecidableEq α] (x : α) (l : List α) :
    List.count x (removeFirst x l) = List.count x l - 1 := by
  induction l with
  | nil => simp [removeFirst]
  | cons y ys ih =>
      by_cases h : y = x
      · subst h; simp [removeFirst, List.count_cons_self]
      · simp [removeFirst, h, List.count_cons_of_ne (fun hh => h hh.symm), ih]

theorem count_removeFirst_ne {α : Type} [DecidableEq α] {q x : α} (h : q ≠ x) (l : List α) :
    List.count q (removeFirst x l) = List.count q l := by
  induction l with
  | nil => simp [removeFirst]
  | cons y ys ih =>
      by_cases hy : y = x
      · subst hy
        have h1 : removeFirst y (y :: ys) = ys := by simp [removeFirst]
        rw [h1, List.count_cons_of_ne h]
      · simp only [removeFirst, if_neg hy]
        rw [List.count_cons, List.count_cons, ih]

theorem mem_removeFirst_of_ne {α : Type} [DecidableEq α] {q x : α} (h : q ≠ x) (l : List α) :
    q ∈ removeFirst x l ↔ q ∈ l := by
  rw [← List.count_pos_iff, ← List.count_pos_iff, count_removeFirst_ne h]

theorem not_mem_removeFirst_of_nodup {α : Type} [DecidableEq α] (x : α) {l : List α}
    (h : l.Nodup) : x ∉ removeFirst x l := by
  rw [← List.count_eq_zero, count_removeFirst_self]
  have := List.nodup_iff_count_le_one.mp h x
  omega

theorem nodup_removeFirst {α : Type} [DecidableEq α] (x : α) {l : List α} (h : l.Nodup) :
    (removeFirst x l).Nodup := (removeFirst_sublist x l).nodup h

theorem pyRemove_eq {α : Type} [DecidableEq α] (x : α) (l : List α) :
    pyRemove x l = if x ∈ l then some (removeFirst x l) else none := by
  induction l with
  | nil => simp [pyRemove]
  | cons y ys ih =>
      by_cases h : y = x
      · subst h; simp [pyRemove, removeFirst]
      · rw [pyRemove, if_neg h, ih]
        by_cases hm : x ∈ ys
        · simp [hm, removeFirst, h, Ne.symm h]
        · simp [hm, Ne.symm h]

theorem alookup_append {α β : Type} [DecidableEq α] (k : α) (l1 l2 : List (α × β)) :
    alookup k (l1 ++ l2) =
      match alookup k l1 with
      | some v => some v
      | none => alookup k l2 := by
  induction l1 with
  | nil => simp [alookup]
  | cons p ps ih =>
      by_cases h : p.1 = k
      · simp [alookup, h]
      · simp [alookup, h, ih]

theorem alookup_eq_none_iff {α β : Type} [DecidableEq α] (k : α) (l : List (α × β)) :
    alookup k l = none ↔ k ∉ l.map Prod.fst := by
  induction l with
  | nil => simp [alookup]
  | cons p ps ih =>
      by_cases h : p.1 = k
      · simp [alookup, h]
      · simp [alookup, h, ih, Ne.symm h]

theorem alookup_aset_self {α β : Type} [DecidableEq α] (k : α) (v : β) (l : List (α × β)) :
    alookup k (aset k v l) = (alookup k l).map (fun _ => v) := by
  induction l with
  | nil => simp [alookup, aset]
  | cons p ps ih =>
      by_cases h : p.1 = k
      · simp [alookup, aset, h]
      · simp [alookup, aset, h, ih]

theorem alookup_aset_ne {α β : Type} [DecidableEq α] {q k : α} (h : q ≠ k) (v : β)
    (l : List (α × β)) : alookup q (aset k v l) = alookup q l := by
  induction l with
  | nil => simp [alookup, aset]
  | cons p ps ih =>
      by_cases hp : p.1 = k
      · subst hp; simp [alookup, aset, Ne.symm h]
      · by_cases hq : p.1 = q <;> simp [alookup, aset, hp, hq, ih, h]

theorem map_fst_aset {α β : Type} [DecidableEq α] (k : α) (v : β) (l : List (α × β)) :
    (aset k v l).map Prod.fst = l.map Prod.fst := by
  induction l with
  | nil => simp [aset]
  | cons p ps ih =>
      by_cases h : p.1 = k
      · simp [aset, h]
      · simp [aset, h, ih]

theorem alookup_adel_ne {α β : Type} [DecidableEq α] {q k : α} (h : q ≠ k)
    (l : List (α × β)) : alookup q (adel k l) = alookup q l := by
  induction l with
  | nil => simp [adel]
  | cons p ps ih =>
      by_cases hp : p.1 = k
      · subst hp; simp [alookup, adel, Ne.symm h]
      · by_cases hq : p.1 = q <;> simp [alookup, adel, hp, hq, ih, h]

theorem map_fst_adel {α β : Type} [DecidableEq α] (k : α) (l : List (α × β)) :
    (adel k l).map Prod.fst = removeFirst k (l.map Prod.fst) := by
  induction l with
  | nil => simp [adel, removeFirst]
  | cons p ps ih =>
      by_cases h : p.1 = k
      · simp [adel, removeFirst, h]
      · simp [adel, removeFirst, h, ih]

theorem alookup_adel_self {α β : Type} [DecidableEq α] (k : α) {l : List (α × β)}
    (h : (l.map Prod.fst).Nodup) : alookup k (adel k l) = none := by
  rw [alookup_eq_none_iff, map_fst_adel]
  exact not_mem_removeFirst_of_nodup k h

theorem alookup_map_if {α β : Type} [DecidableEq α] (k q : α) (f : β → β)
    (l : List (α × β)) :
    alookup q (l.map (fun p => if p.1 = k then (p.1, f p.2) else p)) =
      if q = k then (alookup k l).map f else alookup q l := by
  induction l with
  | nil => by_cases h : q = k <;> simp [alookup, h]
  | cons p ps ih =>
      by_cases hp : p.1 = k
      · by_cases hq : q = k
        · subst hq; simp [alookup, hp, ih]
        · have hpq : ¬p.1 = q := fun hh => hq (hh.symm.trans hp)
          have hkq : ¬k = q := fun hh => hq hh.symm
          simp [alookup, hp, hq, hpq, hkq, ih]
      · by_cases hq : p.1 = q
        · have hqk : ¬q = k := fun hh => hp (hq.trans hh)
          simp [alookup, hp, hq, hqk]
        · simp [alookup, hp, hq, ih]

theorem map_fst_map_if {α β : Type} [DecidableEq α] (k : α) (f : β → β)
    (l : List (α × β)) :
    (l.map (fun p => if p.1 = k then (p.1, f p.2) else p)).map Prod.fst = l.map Prod.fst := by
  induction l with
  | nil => simp
  | cons p ps ih =>
      by_cases hp : p.1 = k <;> simp [hp, ih]

theorem splitLimitAux_zero (sep : Char) (cs acc : List Char) :
    splitLimitAux sep cs 0 acc = [acc.reverse ++ cs] := by
  induction cs generalizing acc with
  | nil => simp [splitLimitAux]
  | cons c cs ih => simp [splitLimitAux, ih]

theorem splitLimitAux_ne_nil (sep : Char) (cs : List Char) (n : Nat) (acc : List Char) :
    splitLimitAux sep cs n acc ≠ [] := by
  induction cs generalizing n acc with
  | nil => simp [splitLimitAux]
  | cons c cs ih =>
      cases n with
      | zero => simp [splitLimitAux]; exact ih 0 (c :: acc)
      | succ m =>
          by_cases hc : c = sep
          · simp [splitLimitAux, hc]
          · simp [splitLimitAux, hc]; exact ih (Nat.succ m) (c :: acc)

theorem splitLimitAux_length (sep : Char) (cs : List Char) (n : Nat) (acc : List Char) :
    (splitLimitAux sep cs n acc).length ≤ n + 1 := by
  induction cs generalizing n acc with
  | nil => simp [splitLimitAux]
  | cons c cs ih =>
      cases n with
      | zero => rw [splitLimitAux_zero]; simp
      | succ m =>
          by_cases hc : c = sep
          · simp only [splitLimitAux, if_pos hc, List.length_cons]
            have := ih m []
            omega
          · simp only [splitLimitAux, if_neg hc]
            exact ih (Nat.succ m) (c :: acc)

theorem splitLimitAux_get_no_sep (sep : Char) (cs : List Char) :
    ∀ (n : Nat) (acc : List Char) (i : Nat) (x : List Char), sep ∉ acc → i < n →
      (splitLimitAux sep cs n acc).get? i = some x → sep ∉ x := by
  induction cs with
  | nil =>
      intro n acc i x hacc hi hg
      simp only [splitLimitAux] at hg
      cases i with
      | zero => simp at hg; subst hg; simpa using hacc
      | succ j => simp at hg
  | cons c cs ih =>
      intro n acc i x hacc hi hg
      cases n with
      | zero => omega
      | succ m =>
          by_cases hc : c = sep
          · simp only [splitLimitAux, if_pos hc] at hg
            cases i with
            | zero =>
                simp at hg; subst hg; simpa using hacc
            | succ j =>
                simp only [List.get?_cons_succ] at hg
                exact ih m [] j x (by simp) (by omega) hg
          · simp only [splitLimitAux, if_neg hc] at hg
            exact ih (Nat.succ m) (c :: acc) i x
              (by simp [hacc]; exact fun hh => hc hh.symm) hi hg

theorem pySplitSpace_length (s : String) (m : Nat) :
    (pySplitSpace s m).length ≤ m + 1 := by
  simpa [pySplitSpace] using splitLimitAux_length ' ' s.data m []

theorem pySplitSpace_ne_nil (s : String) (m : Nat) : pySplitSpace s m ≠ [] := by
  simp only [pySplitSpace, ne_eq, List.map_eq_nil]
  exact splitLimitAux_ne_nil ' ' s.data m []

theorem pySplitSpace_get_no_space (s : String) (m i : Nat) (x : String)
    (hi : i < m) (hx : (pySplitSpace s m).get? i = some x) : ' ' ∉ x.data := by
  simp only [pySplitSpace, List.get?_map] at hx
  cases hg : (splitLimitAux ' ' s.data m []).get? i with
  | none => rw [hg] at hx; simp at hx
  | some cs =>
      rw [hg] at hx
      simp at hx
      have := splitLimitAux_get_no_sep ' ' s.data m [] i cs (by simp) hi hg
      rw [← hx]
      simpa using this

@[simp] theorem push_sname (st : ServerState) (sid : Nat) (t : String) : (push st sid t).sname = st.sname := rfl
@[simp] theorem push_now (st : ServerState) (sid : Nat) (t : String) : (push st sid t).now = st.now := rfl
@[simp] theorem push_hallMembers (st : ServerState) (sid : Nat) (t : String) : (push st sid t).hallMembers = st.hallMembers := rfl
@[simp] theorem push_rooms (st : ServerState) (sid : Nat) (t : String) : (push st sid t).rooms = st.rooms := rfl
@[simp] theorem push_clientnames (st : ServerState) (sid : Nat) (t : String) : (push st sid t).clientnames = st.clientnames := rfl
@[simp] theorem push_sessions (st : ServerState) (sid : Nat) (t : String) : (push st sid t).sessions = st.sessions := rfl
@[simp] theorem push_allsessions (st : ServerState) (sid : Nat) (t : String) : (push st sid t).allsessions = st.allsessions := rfl
@[simp] theorem push_ltrace (st : ServerState) (sid : Nat) (t : String) : (push st sid t).ltrace = st.ltrace := rfl
@[simp] theorem push_output (st : ServerState) (sid : Nat) (t : String) : (push st sid t).output = st.output ++ [(sid, t)] := rfl

@[simp] theorem addEv_sname (st : ServerState) (sid : Nat) (k : LKind) : (addEv st sid k).sname = st.sname := rfl
@[simp] theorem addEv_now (st : ServerState) (sid : Nat) (k : LKind) : (addEv st sid k).now = st.now := rfl
@[simp] theorem addEv_hallMembers (st : ServerState) (sid : Nat) (k : LKind) : (addEv st sid k).hallMembers = st.hallMembers := rfl
@[simp] theorem addEv_rooms (st : ServerState) (sid : Nat) (k : LKind) : (addEv st sid k).rooms = st.rooms := rfl
@[simp] theorem addEv_clientnames (st : ServerState) (sid : Nat) (k : LKind) : (addEv st sid k).clientnames = st.clientnames := rfl
@[simp] theorem addEv_sessions (st : ServerState) (sid : Nat) (k : LKind) : (addEv st sid k).sessions = st.sessions := rfl
@[simp] theorem addEv_allsessions (st : ServerState) (sid : Nat) (k : LKind) : (addEv st sid k).allsessions = st.allsessions := rfl
@[simp] theorem addEv_output (st : ServerState) (sid : Nat) (k : LKind) : (addEv st sid k).output = st.output := rfl
@[simp] theorem addEv_ltrace (st : ServerState) (sid : Nat) (k : LKind) : (addEv st sid k).ltrace = st.ltrace ++ [(sid, k)] := rfl

@[simp] theorem broadcast_sname (st : ServerState) (r : RoomRef) (w : String) : (broadcast st r w).sname = st.sname := rfl
@[simp] theorem broadcast_now (st : ServerState) (r : RoomRef) (w : String) : (broadcast st r w).now = st.now := rfl
@[simp] theorem broadcast_hallMembers (st : ServerState) (r : RoomRef) (w : String) : (broadcast st r w).hallMembers = st.hallMembers := rfl
@[simp] theorem broadcast_rooms (st : ServerState) (r : RoomRef) (w : String) : (broadcast st r w).rooms = st.rooms := rfl
@[simp] theorem broadcast_clientnames (st : ServerState) (r : RoomRef) (w : String) : (broadcast st r w).clientnames = st.clientnames := rfl
@[simp] theorem broadcast_sessions (st : ServerState) (r : RoomRef) (w : String) : (broadcast st r w).sessions = st.sessions := rfl
@[simp] theorem broadcast_allsessions (st : ServerState) (r : RoomRef) (w : String) : (broadcast st r w).allsessions = st.allsessions := rfl
@[simp] theorem broadcast_ltrace (st : ServerState) (r : RoomRef) (w : String) : (broadcast st r w).ltrace = st.ltrace := rfl
@[simp] theorem broadcast_output (st : ServerState) (r : RoomRef) (w : String) :
    (broadcast st r w).output = st.output ++ (roomMembers st r).map (fun sid => (sid, w ++ "\n")) := rfl

@[simp] theorem roomMembers_push (st : ServerState) (sid : Nat) (t : String) (r : RoomRef) :
    roomMembers (push st sid t) r = roomMembers st r := by cases r <;> rfl
@[simp] theorem roomMembers_addEv (st : ServerState) (sid : Nat) (k : LKind) (r : RoomRef) :
    roomMembers (addEv st sid k) r = roomMembers st r := by cases r <;> rfl
@[simp] theorem roomMembers_broadcast (st : ServerState) (r0 : RoomRef) (w : String) (r : RoomRef) :
    roomMembers (broadcast st r0 w) r = roomMembers st r := by cases r <;> rfl

@[simp] theorem logicOf_push (st : ServerState) (sid : Nat) (t : String) (q : Nat) :
    logicOf (push st sid t) q = logicOf st q := rfl
@[simp] theorem logicOf_addEv (st : ServerState) (sid : Nat) (k : LKind) (q : Nat) :
    logicOf (addEv st sid k) q = logicOf st q := rfl
@[simp] theorem logicOf_broadcast (st : ServerState) (r : RoomRef) (w : String) (q : Nat) :
    logicOf (broadcast st r w) q = logicOf st q := rfl
@[simp] theorem usernameOf_push (st : ServerState) (sid : Nat) (t : String) (q : Nat) :
    usernameOf (push st sid t) q = usernameOf st q := rfl
@[simp] theorem usernameOf_addEv (st : ServerState) (sid : Nat) (k : LKind) (q : Nat) :
    usernameOf (addEv st sid k) q = usernameOf st q := rfl
@[simp] theorem usernameOf_broadcast (st : ServerState) (r : RoomRef) (w : String) (q : Nat) :
    usernameOf (broadcast st r w) q = usernameOf st q := rfl

@[simp] theorem setLogic_sname (st : ServerState) (sid : Nat) (l : Option LogicRef) : (setLogic st sid l).sname = st.sname := rfl
@[simp] theorem setLogic_now (st : ServerState) (sid : Nat) (l : Option LogicRef) : (setLogic st sid l).now = st.now := rfl
@[simp] theorem setLogic_hallMembers (st : ServerState) (sid : Nat) (l : Option LogicRef) : (setLogic st sid l).hallMembers = st.hallMembers := rfl
@[simp] theorem setLogic_rooms (st : ServerState) (sid : Nat) (l : Option LogicRef) : (setLogic st sid l).rooms = st.rooms := rfl
@[simp] theorem setLogic_clientnames (st : ServerState) (sid : Nat) (l : Option LogicRef) : (setLogic st sid l).clientnames = st.clientnames := rfl
@[simp] theorem setLogic_allsessions (st : ServerState) (sid : Nat) (l : Option LogicRef) : (setLogic st sid l).allsessions = st.allsessions := rfl
@[simp] theorem setLogic_output (st : ServerState) (sid : Nat) (l : Option LogicRef) : (setLogic st sid l).output = st.output := rfl
@[simp] theorem setLogic_ltrace (st : ServerState) (sid : Nat) (l : Option LogicRef) : (setLogic st sid l).ltrace = st.ltrace := rfl
@[simp] theorem roomMembers_setLogic (st : ServerState) (sid : Nat) (l : Option LogicRef) (r : RoomRef) :
    roomMembers (setLogic st sid l) r = roomMembers st r := by cases r <;> rfl

theorem alookup_setLogic (st : ServerState) (sid : Nat) (l : Option LogicRef) (q : Nat) :
    alookup q (setLogic st sid l).sessions =
      if q = sid then (alookup sid st.sessions).map (fun s => { s with logic := l })
      else alookup q st.sessions := by
  unfold setLogic
  exact alookup_map_if sid q (fun s => { s with logic := l }) st.sessions

theorem alookup_setUsername (st : ServerState) (sid : Nat) (u : String) (q : Nat) :
    alookup q (setUsername st sid u).sessions =
      if q = sid then (alookup sid st.sessions).map (fun s => { s with username := u })
      else alookup q st.sessions := by
  unfold setUsername
  exact alookup_map_if sid q (fun s => { s with username := u }) st.sessions

theorem logicOf_setLogic_self {st : ServerState} {sid : Nat} {s : SessionSt}
    (l : Option LogicRef) (h : alookup sid st.sessions = some s) :
    logicOf (setLogic st sid l) sid = l := by
  simp [logicOf, sessionOf, alookup_setLogic, h]

theorem logicOf_setLogic_ne {q sid : Nat} (h : q ≠ sid) (st : ServerState) (l : Option LogicRef) :
    logicOf (setLogic st sid l) q = logicOf st q := by
  simp [logicOf, sessionOf, alookup_setLogic, h]

@[simp] theorem usernameOf_setLogic (st : ServerState) (sid : Nat) (l : Option LogicRef) (q : Nat) :
    usernameOf (setLogic st sid l) q = usernameOf st q := by
  by_cases h : q = sid
  · subst h
    simp only [usernameOf, sessionOf, alookup_setLogic, if_pos rfl]
    cases alookup q st.sessions <;> simp
  · simp [usernameOf, sessionOf, alookup_setLogic, h]

@[simp] theorem logicOf_setUsername (st : ServerState) (sid : Nat) (u : String) (q : Nat) :
    logicOf (setUsername st sid u) q = logicOf st q := by
  by_cases h : q = sid
  · subst h
    simp only [logicOf, sessionOf, alookup_setUsername, if_pos rfl]
    cases alookup q st.sessions <;> simp
  · simp [logicOf, sessionOf, alookup_setUsername, h]

theorem usernameOf_setUsername_self {st : ServerState} {sid : Nat} {s : SessionSt}
    (u : String) (h : alookup sid st.sessions = some s) :
    usernameOf (setUsername st sid u) sid = u := by
  simp [usernameOf, sessionOf, alookup_setUsername, h]

theorem usernameOf_setUsername_ne {q sid : Nat} (h : q ≠ sid) (st : ServerState) (u : String) :
    usernameOf (setUsername st sid u) q = usernameOf st q := by
  simp [usernameOf, sessionOf, alookup_setUsername, h]

@[simp] theorem setUsername_sname (st : ServerState) (sid : Nat) (u : String) : (setUsername st sid u).sname = st.sname := rfl
@[simp] theorem setUsername_now (st : ServerState) (sid : Nat) (u : String) : (setUsername st sid u).now = st.now := rfl
@[simp] theorem setUsername_hallMembers (st : ServerState) (sid : Nat) (u : String) : (setUsername st sid u).hallMembers = st.hallMembers := rfl
@[simp] theorem setUsername_rooms (st : ServerState) (sid : Nat) (u : String) : (setUsername st sid u).rooms = st.rooms := rfl
@[simp] theorem setUsername_clientnames (st : ServerState) (sid : Nat) (u : String) : (setUsername st sid u).clientnames = st.clientnames := rfl
@[simp] theorem setUsername_allsessions (st : ServerState) (sid : Nat) (u : String) : (setUsername st sid u).allsessions = st.allsessions := rfl
@[simp] theorem setUsername_output (st : ServerState) (sid : Nat) (u : String) : (setUsername st sid u).output = st.output := rfl
@[simp] theorem setUsername_ltrace (st : ServerState) (sid : Nat) (u : String) : (setUsername st sid u).ltrace = st.ltrace := rfl
@[simp] theorem roomMembers_setUsername (st : ServerState) (sid : Nat) (u : String) (r : RoomRef) :
    roomMembers (setUsername st sid u) r = roomMembers st r := by cases r <;> rfl

@[simp] theorem setRoomMembers_sessions (st : ServerState) (r : RoomRef) (l : List Nat) :
    (setRoomMembers st r l).sessions = st.sessions := by cases r <;> rfl
@[simp] theorem setRoomMembers_clientnames (st : ServerState) (r : RoomRef) (l : List Nat) :
    (setRoomMembers st r l).clientnames = st.clientnames := by cases r <;> rfl
@[simp] theorem setRoomMembers_allsessions (st : ServerState) (r : RoomRef) (l : List Nat) :
    (setRoomMembers st r l).allsessions = st.allsessions := by cases r <;> rfl
@[simp] theorem setRoomMembers_output (st : ServerState) (r : RoomRef) (l : List Nat) :
    (setRoomMembers st r l).output = st.output := by cases r <;> rfl
@[simp] theorem setRoomMembers_ltrace (st : ServerState) (r : RoomRef) (l : List Nat) :
    (setRoomMembers st r l).ltrace = st.ltrace := by cases r <;> rfl
@[simp] theorem setRoomMembers_sname (st : ServerState) (r : RoomRef) (l : List Nat) :
    (setRoomMembers st r l).sname = st.sname := by cases r <;> rfl
@[simp] theorem setRoomMembers_now (st : ServerState) (r : RoomRef) (l : List Nat) :
    (setRoomMembers st r l).now = st.now := by cases r <;> rfl
@[simp] theorem logicOf_setRoomMembers (st : ServerState) (r : RoomRef) (l : List Nat) (q : Nat) :
    logicOf (setRoomMembers st r l) q = logicOf st q := by cases r <;> rfl
@[simp] theorem usernameOf_setRoomMembers (st : ServerState) (r : RoomRef) (l : List Nat) (q : Nat) :
    usernameOf (setRoomMembers st r l) q = usernameOf st q := by cases r <;> rfl

theorem map_fst_setRoomMembers (st : ServerState) (r : RoomRef) (l : List Nat) :
    (setRoomMembers st r l).rooms.map Prod.fst = st.rooms.map Prod.fst := by
  cases r with
  | hall => rfl
  | user n => exact map_fst_aset n l st.rooms

theorem roomMembers_setRoomMembers_self (st : ServerState) (r : RoomRef) (l : List Nat)
    (h : ∀ n, r = RoomRef.user n → (alookup n st.rooms).isSome = true) :
    roomMembers (setRoomMembers st r l) r = l := by
  cases r with
  | hall => rfl
  | user n =>
      have := h n rfl
      simp only [roomMembers, setRoomMembers, alookup_aset_self]
      cases hx : alookup n st.rooms with
      | none => rw [hx] at this; simp at this
      | some v => simp

theorem roomMembers_setRoomMembers_ne (st : ServerState) {r r' : RoomRef} (l : List Nat)
    (h : r' ≠ r) : roomMembers (setRoomMembers st r l) r' = roomMembers st r' := by
  cases r with
  | hall =>
      cases r' with
      | hall => exact absurd rfl h
      | user n' => rfl
  | user n =>
      cases r' with
      | hall => rfl
      | user n' =>
          have hn : n' ≠ n := fun hh => h (by rw [hh])
          simp [roomMembers, setRoomMembers, alookup_aset_ne hn]

@[simp] theorem user_quit_sname (st : ServerState) (sid : Nat) : (user_quit st sid).sname = st.sname := rfl
@[simp] theorem user_quit_now (st : ServerState) (sid : Nat) : (user_quit st sid).now = st.now := rfl
@[simp] theorem user_quit_hallMembers (st : ServerState) (sid : Nat) : (user_quit st sid).hallMembers = st.hallMembers := rfl
@[simp] theorem user_quit_rooms (st : ServerState) (sid : Nat) : (user_quit st sid).rooms = st.rooms := rfl
@[simp] theorem user_quit_sessions (st : ServerState) (sid : Nat) : (user_quit st sid).sessions = st.sessions := rfl
@[simp] theorem user_quit_output (st : ServerState) (sid : Nat) : (user_quit st sid).output = st.output := rfl
@[simp] theorem user_quit_ltrace (st : ServerState) (sid : Nat) : (user_quit st sid).ltrace = st.ltrace := rfl
@[simp] theorem user_quit_clientnames (st : ServerState) (sid : Nat) :
    (user_quit st sid).clientnames = removeFirst (usernameOf st sid) st.clientnames := rfl
@[simp] theorem user_quit_allsessions (st : ServerState) (sid : Nat) :
    (user_quit st sid).allsessions = removeFirst sid st.allsessions := rfl
@[simp] theorem logicOf_user_quit (st : ServerState) (sid : Nat) (q : Nat) :
    logicOf (user_quit st sid) q = logicOf st q := rfl
@[simp] theorem usernameOf_user_quit (st : ServerState) (sid : Nat) (q : Nat) :
    usernameOf (user_quit st sid) q = usernameOf st q := rfl
@[simp] theorem roomMembers_user_quit (st : ServerState) (sid : Nat) (r : RoomRef) :
    roomMembers (user_quit st sid) r = roomMembers st r := by cases r <;> rfl

@[simp] theorem nameEnter_unfold (st : ServerState) (sid : Nat) :
    nameEnter st sid = push st sid ("Welcome to " ++ st.sname ++ "\nPlease input your user name >") := rfl

/-- The room a session is currently bound to, if its current logic is a room. -/
def boundRoom (st : ServerState) (sid : Nat) : Option RoomRef :=
  match logicOf st sid with
  | some (LogicRef.roomL r) => some r
  | _ => none

/-- System invariant: membership multiplicity matches the binding (each session occurs
exactly once in the member list of the room it is bound to, nowhere otherwise); room
registry keys are distinct and space-free; registered names are distinct; and every
session's lifecycle trace replays to its current binding. -/
def SInv (st : ServerState) : Prop :=
  (∀ q r, List.count q (roomMembers st r) = if boundRoom st q = some r then 1 else 0) ∧
  (st.rooms.map Prod.fst).Nodup ∧
  (∀ k ∈ st.rooms.map Prod.fst, ' ' ∉ k.data) ∧
  st.clientnames.Nodup ∧
  (∀ q, tracePlay (subtrace q st.ltrace) = some (logicOf st q))

theorem subtrace_append (sid : Nat) (tr1 tr2 : List (Nat × LKind)) :
    subtrace sid (tr1 ++ tr2) = subtrace sid tr1 ++ subtrace sid tr2 := by
  simp [subtrace, List.filter_append]

theorem subtrace_single_self (sid : Nat) (k : LKind) : subtrace sid [(sid, k)] = [k] := by
  simp [subtrace]

theorem subtrace_single_ne {q sid : Nat} (h : sid ≠ q) (k : LKind) :
    subtrace q [(sid, k)] = [] := by
  simp [subtrace, h]

theorem tracePlay_append (l1 l2 : List LKind) :
    tracePlay (l1 ++ l2) = l2.foldl applyLEv (tracePlay l1) := by
  simp [tracePlay, List.foldl_append]

theorem roomPresent_of_mem {st : ServerState} {r : RoomRef} {sid : Nat}
    (h : sid ∈ roomMembers st r) :
    ∀ n, r = RoomRef.user n → (alookup n st.rooms).isSome = true := by
  intro n hr
  subst hr
  simp only [roomMembers] at h
  cases hx : alookup n st.rooms with
  | none => rw [hx] at h; simp at h
  | some l => rfl

theorem mem_of_count_one {sid : Nat} {l : List Nat} (h : List.count sid l = 1) : sid ∈ l := by
  rw [← List.count_pos_iff, h]
  omega

theorem roomEnter_members_self (st : ServerState) (r : RoomRef) (sid : Nat)
    (h : ∀ n, r = RoomRef.user n → (alookup n st.rooms).isSome = true) :
    roomMembers (roomEnter st r sid) r = roomMembers st r ++ [sid] := by
  simp only [roomEnter, broadcastUserState, roomMembers_broadcast, roomMembers_push]
  exact roomMembers_setRoomMembers_self st r _ h

theorem roomEnter_members_ne (st : ServerState) {r r' : RoomRef} (sid : Nat) (h : r' ≠ r) :
    roomMembers (roomEnter st r sid) r' = roomMembers st r' := by
  simp only [roomEnter, broadcastUserState, roomMembers_broadcast, roomMembers_push]
  exact roomMembers_setRoomMembers_ne st _ h

@[simp] theorem roomEnter_sessions (st : ServerState) (r : RoomRef) (sid : Nat) :
    (roomEnter st r sid).sessions = st.sessions := by
  simp [roomEnter, broadcastUserState]
@[simp] theorem roomEnter_clientnames (st : ServerState) (r : RoomRef) (sid : Nat) :
    (roomEnter st r sid).clientnames = st.clientnames := by
  simp [roomEnter, broadcastUserState]
@[simp] theorem roomEnter_allsessions (st : ServerState) (r : RoomRef) (sid : Nat) :
    (roomEnter st r sid).allsessions = st.allsessions := by
  simp [roomEnter, broadcastUserState]
@[simp] theorem roomEnter_ltrace (st : ServerState) (r : RoomRef) (sid : Nat) :
    (roomEnter st r sid).ltrace = st.ltrace := by
  simp [roomEnter, broadcastUserState]
@[simp] theorem roomEnter_sname (st : ServerState) (r : RoomRef) (sid : Nat) :
    (roomEnter st r sid).sname = st.sname := by
  simp [roomEnter, broadcastUserState]
@[simp] theorem roomEnter_now (st : ServerState) (r : RoomRef) (sid : Nat) :
    (roomEnter st r sid).now = st.now := by
  simp [roomEnter, broadcastUserState]
theorem roomEnter_map_fst_rooms (st : ServerState) (r : RoomRef) (sid : Nat) :
    (roomEnter st r sid).rooms.map Prod.fst = st.rooms.map Prod.fst := by
  simp only [roomEnter, broadcastUserState, broadcast_rooms, push_rooms]
  exact map_fst_setRoomMembers st r _
@[simp] theorem logicOf_roomEnter (st : ServerState) (r : RoomRef) (sid q : Nat) :
    logicOf (roomEnter st r sid) q = logicOf st q := by
  simp [roomEnter, broadcastUserState]
@[simp] theorem usernameOf_roomEnter (st : ServerState) (r : RoomRef) (sid q : Nat) :
    usernameOf (roomEnter st r sid) q = usernameOf st q := by
  simp [roomEnter, broadcastUserState]

theorem roomEnter_output (st : ServerState) (r : RoomRef) (sid : Nat)
    (h : ∀ n, r = RoomRef.user n → (alookup n st.rooms).isSome = true) :
    (roomEnter st r sid).output =
      st.output ++ [(sid, "Welcome to " ++ roomName st r ++ "\n")]
        ++ (roomMembers st r ++ [sid]).map
             (fun m => (m, stateNotice st sid "enters room" ++ "\n")) := by
  simp only [roomEnter, broadcastUserState, broadcast_output, push_output,
    setRoomMembers_output, roomMembers_push]
  rw [roomMembers_setRoomMembers_self st r _ h]
  simp [stateNotice, List.append_assoc]

theorem roomLeave_eq (st : ServerState) (r : RoomRef) (sid : Nat)
    (h : sid ∈ roomMembers st r) :
    roomLeave st r sid = Except.ok
      (broadcastUserState (setRoomMembers st r (removeFirst sid (roomMembers st r)))
        r sid "leaves room") := by
  simp [roomLeave, pyRemove_eq, h]

theorem count_append_nat (q : Nat) (l1 l2 : List Nat) :
    List.count q (l1 ++ l2) = List.count q l1 + List.count q l2 :=
  List.count_append q l1 l2

theorem alookup_isSome_iff {α β : Type} [DecidableEq α] (k : α) (l : List (α × β)) :
    (alookup k l).isSome = true ↔ k ∈ l.map Prod.fst := by
  cases hx : alookup k l with
  | none => simp [(alookup_eq_none_iff k l).mp hx]
  | some v =>
      simp only [Option.isSome_some, true_iff]
      by_contra hmem
      rw [← alookup_eq_none_iff k l] at hmem
      rw [hx] at hmem
      cases hmem

theorem logicOf_congr_sessions {st1 st2 : ServerState} (h : st1.sessions = st2.sessions)
    (q : Nat) : logicOf st1 q = logicOf st2 q := by
  simp [logicOf, sessionOf, h]

theorem usernameOf_congr_sessions {st1 st2 : ServerState} (h : st1.sessions = st2.sessions)
    (q : Nat) : usernameOf st1 q = usernameOf st2 q := by
  simp [usernameOf, sessionOf, h]

theorem changeLeaveStage_spec (st : ServerState) (sid : Nat)
    (hcnt : ∀ q r, List.count q (roomMembers st r) = if boundRoom st q = some r then 1 else 0) :
    ∃ st1, changeLeaveStage st sid = Except.ok st1 ∧
      st1.sessions = st.sessions ∧ st1.clientnames = st.clientnames ∧
      st1.allsessions = st.allsessions ∧ st1.sname = st.sname ∧ st1.now = st.now ∧
      st1.rooms.map Prod.fst = st.rooms.map Prod.fst ∧
      st1.ltrace = st.ltrace ++ (match logicOf st sid with
        | none => []
        | some l => [(sid, LKind.leave l)]) ∧
      (∀ q r, List.count q (roomMembers st1 r) =
        if q = sid then 0 else List.count q (roomMembers st r)) := by
  have hzero : boundRoom st sid = none →
      ∀ r, List.count sid (roomMembers st r) = 0 := by
    intro hb r
    rw [hcnt sid r, hb]
    simp
  cases hlog : logicOf st sid with
  | none =>
      refine ⟨st, by simp [changeLeaveStage, hlog], rfl, rfl, rfl, rfl, rfl, rfl, by simp, ?_⟩
      intro q r
      by_cases hq : q = sid
      · subst hq
        rw [hzero (by simp [boundRoom, hlog]) r]
        simp
      · simp [hq]
  | some l =>
      cases l with
      | nameMgr =>
          refine ⟨addEv st sid (LKind.leave LogicRef.nameMgr),
            by simp [changeLeaveStage, hlog], rfl, rfl, rfl, rfl, rfl, rfl, by simp, ?_⟩
          intro q r
          by_cases hq : q = sid
          · subst hq
            rw [roomMembers_addEv, hzero (by simp [boundRoom, hlog]) r]
            simp
          · simp [hq]
      | roomL r0 =>
          have hb : boundRoom st sid = some r0 := by simp [boundRoom, hlog]
          have hc1 : List.count sid (roomMembers st r0) = 1 := by
            rw [hcnt sid r0, hb]; simp
          have hmem : sid ∈ roomMembers st r0 := mem_of_count_one hc1
          have hmem1 : sid ∈ roomMembers (addEv st sid (LKind.leave (LogicRef.roomL r0))) r0 := by
            simpa using hmem
          have hpres : ∀ n, r0 = RoomRef.user n →
              (alookup n (addEv st sid (LKind.leave (LogicRef.roomL r0))).rooms).isSome = true := by
            simpa using roomPresent_of_mem hmem
          refine ⟨_, by simp only [changeLeaveStage, hlog]; exact roomLeave_eq _ _ _ hmem1, ?_, ?_, ?_, ?_, ?_, ?_, ?_, ?_⟩
          · simp [broadcastUserState]
          · simp [broadcastUserState]
          · simp [broadcastUserState]
          · simp [broadcastUserState]
          · simp [broadcastUserState]
          · simp only [broadcastUserState, broadcast_rooms]
            have := map_fst_setRoomMembers (addEv st sid (LKind.leave (LogicRef.roomL r0))) r0
              (removeFirst sid (roomMembers (addEv st sid (LKind.leave (LogicRef.roomL r0))) r0))
            simpa using this
          · simp [broadcastUserState, hlog]
          · intro q r
            simp only [broadcastUserState, roomMembers_broadcast, roomMembers_addEv]
            by_cases hr : r = r0
            · rw [hr, roomMembers_setRoomMembers_self _ _ _ hpres]
              by_cases hq : q = sid
              · rw [if_pos hq, hq, count_removeFirst_self, hc1]
              · rw [if_neg hq, count_removeFirst_ne hq]
            · rw [roomMembers_setRoomMembers_ne _ _ hr, roomMembers_addEv]
              by_cases hq : q = sid
              · rw [if_pos hq, hq, hcnt sid r, hb]
                simp only [Option.some.injEq, if_neg (fun hh : r0 = r => hr hh.symm)]
              · rw [if_neg hq]

/-- The trace segment produced by leaving the currently bound logic. -/
def leaveSeg (sid : Nat) : Option LogicRef → List (Nat × LKind)
  | none => []
  | some l => [(sid, LKind.leave l)]

/-- The trace event produced by entering the new logic or notifying the quit. -/
def enterSeg (sid : Nat) : Option LogicRef → Nat × LKind
  | none => (sid, LKind.quitNotify)
  | some l => (sid, LKind.enter l)

theorem changeEnterStage_spec (st2 : ServerState) (sid : Nat) (newl : Option LogicRef)
    (hnew : ∀ n, newl = some (LogicRef.roomL (RoomRef.user n)) →
      (alookup n st2.rooms).isSome = true) :
    (changeEnterStage st2 sid newl).sessions = st2.sessions ∧
    (changeEnterStage st2 sid newl).sname = st2.sname ∧
    (changeEnterStage st2 sid newl).now = st2.now ∧
    (changeEnterStage st2 sid newl).rooms.map Prod.fst = st2.rooms.map Prod.fst ∧
    (newl = none →
      (changeEnterStage st2 sid newl).clientnames =
        removeFirst (usernameOf st2 sid) st2.clientnames ∧
      (changeEnterStage st2 sid newl).allsessions = removeFirst sid st2.allsessions) ∧
    (newl ≠ none →
      (changeEnterStage st2 sid newl).clientnames = st2.clientnames ∧
      (changeEnterStage st2 sid newl).allsessions = st2.allsessions) ∧
    (changeEnterStage st2 sid newl).ltrace = st2.ltrace ++ [enterSeg sid newl] ∧
    ((∀ r0, newl ≠ some (LogicRef.roomL r0)) →
      ∀ q r, List.count q (roomMembers (changeEnterStage st2 sid newl) r) =
        List.count q (roomMembers st2 r)) ∧
    (∀ r0, newl = some (LogicRef.roomL r0) →
      ∀ q r, List.count q (roomMembers (changeEnterStage st2 sid newl) r) =
        if q = sid ∧ r = r0 then List.count q (roomMembers st2 r) + 1
        else List.count q (roomMembers st2 r)) := by
  cases newl with
  | none =>
      refine ⟨rfl, rfl, rfl, rfl, ?_, ?_, ?_, ?_, ?_⟩
      · intro _
        exact ⟨by simp [changeEnterStage], by simp [changeEnterStage]⟩
      · intro h
        exact absurd rfl h
      · simp [changeEnterStage, enterSeg]
      · intro _ q r
        simp [changeEnterStage]
      · intro r0 h
        exact absurd h (by simp)
  | some l =>
      cases l with
      | nameMgr =>
          refine ⟨rfl, rfl, rfl, rfl, ?_, ?_, ?_, ?_, ?_⟩
          · intro h
            exact absurd h (by simp)
          · intro _
            exact ⟨rfl, rfl⟩
          · simp [changeEnterStage, enterSeg]
          · intro _ q r
            simp [changeEnterStage]
          · intro r0 h
            exact absurd h (by simp)
      | roomL r0 =>
          have hpres : ∀ n, r0 = RoomRef.user n →
              (alookup n (addEv st2 sid (LKind.enter (LogicRef.roomL r0))).rooms).isSome = true := by
            intro n hh
            simpa using hnew n (by rw [hh])
          refine ⟨by simp [changeEnterStage], by simp [changeEnterStage],
            by simp [changeEnterStage], ?_, ?_, ?_, ?_, ?_, ?_⟩
          · simp only [changeEnterStage]
            rw [roomEnter_map_fst_rooms]
            simp
          · intro h
            exact absurd h (by simp)
          · intro _
            constructor <;> simp [changeEnterStage]
          · simp [changeEnterStage, enterSeg]
          · intro habs
            exact absurd rfl (habs r0)
          · intro r1 h1 q r
            have hr01 : r1 = r0 := by
              injection h1 with hh
              injection hh with hh2
              exact hh2.symm
            rw [hr01]
            simp only [changeEnterStage]
            by_cases hr : r = r0
            · rw [hr, roomEnter_members_self _ _ _ hpres, roomMembers_addEv,
                count_append_nat]
              by_cases hq : q = sid
              · simp [hq, hr, List.count_singleton]
              · have hz : List.count q [sid] = 0 := by
                  rw [List.count_eq_zero]
                  simp [hq]
                simp [hz, hq, hr]
            · rw [roomEnter_members_ne _ _ hr, roomMembers_addEv,
                if_neg (fun hh : q = sid ∧ r = r0 => hr hh.2)]

theorem tracePlay_snoc (l : List LKind) (k : LKind) :
    tracePlay (l ++ [k]) = applyLEv (tracePlay l) k := by
  simp [tracePlay, List.foldl_append]

theorem boundRoom_congr {st1 st2 : ServerState} {q : Nat}
    (h : logicOf st1 q = logicOf st2 q) : boundRoom st1 q = boundRoom st2 q := by
  simp [boundRoom, h]

theorem change_logic_spec (st : ServerState) (sid : Nat) (newl : Option LogicRef)
    (s : SessionSt) (hs : alookup sid st.sessions = some s) (hInv : SInv st)
    (hnew : ∀ n, newl = some (LogicRef.roomL (RoomRef.user n)) →
      (alookup n st.rooms).isSome = true) :
    ∃ st', change_logic st sid newl = Except.ok st' ∧ SInv st' ∧
      logicOf st' sid = newl ∧
      (∀ q, q ≠ sid → logicOf st' q = logicOf st q) ∧
      (∀ q, usernameOf st' q = usernameOf st q) ∧
      st'.sname = st.sname ∧ st'.now = st.now ∧
      st'.rooms.map Prod.fst = st.rooms.map Prod.fst ∧
      (newl = none →
        st'.clientnames = removeFirst (usernameOf st sid) st.clientnames ∧
        st'.allsessions = removeFirst sid st.allsessions) ∧
      (newl ≠ none →
        st'.clientnames = st.clientnames ∧ st'.allsessions = st.allsessions) ∧
      st'.ltrace = st.ltrace ++ leaveSeg sid (logicOf st sid) ++ [enterSeg sid newl] := by
  obtain ⟨hcnt, hndk, hsp, hndc, htr⟩ := hInv
  obtain ⟨st1, hst1, h1sess, h1cn, h1as, h1sn, h1now, h1keys, h1tr, h1cnt⟩ :=
    changeLeaveStage_spec st sid hcnt
  have hs1 : alookup sid st1.sessions = some s := by rw [h1sess]; exact hs
  have hlog2 : logicOf (setLogic st1 sid newl) sid = newl := logicOf_setLogic_self newl hs1
  have hlog2q : ∀ q, q ≠ sid → logicOf (setLogic st1 sid newl) q = logicOf st q := by
    intro q hq
    rw [logicOf_setLogic_ne hq, logicOf_congr_sessions h1sess]
  have huser2 : ∀ q, usernameOf (setLogic st1 sid newl) q = usernameOf st q := by
    intro q
    rw [usernameOf_setLogic, usernameOf_congr_sessions h1sess]
  have hnew2 : ∀ n, newl = some (LogicRef.roomL (RoomRef.user n)) →
      (alookup n (setLogic st1 sid newl).rooms).isSome = true := by
    intro n hn
    rw [setLogic_rooms, alookup_isSome_iff, h1keys, ← alookup_isSome_iff]
    exact hnew n hn
  obtain ⟨e_sess, e_sn, e_now, e_keys, e_quit, e_keep, e_tr, e_cnt0, e_cnt1⟩ :=
    changeEnterStage_spec (setLogic st1 sid newl) sid newl hnew2
  have hcnt2 : ∀ q r, List.count q (roomMembers (setLogic st1 sid newl) r) =
      if q = sid then 0 else List.count q (roomMembers st r) := by
    intro q r
    rw [roomMembers_setLogic]
    exact h1cnt q r
  have hok : change_logic st sid newl =
      Except.ok (changeEnterStage (setLogic st1 sid newl) sid newl) := by
    rw [change_logic, hst1]
  have hlog' : logicOf (changeEnterStage (setLogic st1 sid newl) sid newl) sid = newl := by
    rw [logicOf_congr_sessions e_sess]
    exact hlog2
  have hlogq' : ∀ q, q ≠ sid →
      logicOf (changeEnterStage (setLogic st1 sid newl) sid newl) q = logicOf st q := by
    intro q hq
    rw [logicOf_congr_sessions e_sess]
    exact hlog2q q hq
  have huser' : ∀ q, usernameOf (changeEnterStage (setLogic st1 sid newl) sid newl) q
      = usernameOf st q := by
    intro q
    rw [usernameOf_congr_sessions e_sess]
    exact huser2 q
  have hlt : (changeEnterStage (setLogic st1 sid newl) sid newl).ltrace = st.ltrace
      ++ leaveSeg sid (logicOf st sid) ++ [enterSeg sid newl] := by
    rw [e_tr, setLogic_ltrace, h1tr]
    cases hl0 : logicOf st sid <;> simp [leaveSeg]
  have hcnt' : ∀ q r,
      List.count q (roomMembers (changeEnterStage (setLogic st1 sid newl) sid newl) r) =
      if boundRoom (changeEnterStage (setLogic st1 sid newl) sid newl) q = some r
      then 1 else 0 := by
    intro q r
    have hbq : ∀ hq : q ≠ sid,
        boundRoom (changeEnterStage (setLogic st1 sid newl) sid newl) q = boundRoom st q :=
      fun hq => boundRoom_congr (hlogq' q hq)
    cases hnl : newl with
    | none =>
        subst hnl
        rw [e_cnt0 (fun r0 hh => nomatch hh) q r, hcnt2]
        by_cases hq : q = sid
        · have hbr : boundRoom (changeEnterStage (setLogic st1 sid none) sid none) q = none := by
            simp [boundRoom, hq, hlog']
          rw [hbr, if_pos hq]
          simp
        · rw [hbq hq, if_neg hq]
          exact hcnt q r
    | some l =>
        subst hnl
        cases l with
        | nameMgr =>
            rw [e_cnt0 (fun r0 hh => by injection hh with hh2; cases hh2) q r, hcnt2]
            by_cases hq : q = sid
            · have hbr : boundRoom (changeEnterStage (setLogic st1 sid (some LogicRef.nameMgr))
                  sid (some LogicRef.nameMgr)) q = none := by
                simp [boundRoom, hq, hlog']
              rw [hbr, if_pos hq]
              simp
            · rw [hbq hq, if_neg hq]
              exact hcnt q r
        | roomL r0 =>
            rw [e_cnt1 r0 rfl q r]
            by_cases hq : q = sid
            · have hbr : boundRoom (changeEnterStage (setLogic st1 sid (some (LogicRef.roomL r0)))
                  sid (some (LogicRef.roomL r0))) q = some r0 := by
                simp [boundRoom, hq, hlog']
              rw [hbr]
              by_cases hr : r = r0
              · rw [if_pos ⟨hq, hr⟩, hcnt2, if_pos hq, hr]
                simp
              · rw [if_neg (fun hh : q = sid ∧ r = r0 => hr hh.2), hcnt2, if_pos hq]
                simp only [Option.some.injEq]
                rw [if_neg (fun hh : r0 = r => hr hh.symm)]
            · rw [if_neg (fun hh : q = sid ∧ r = r0 => hq hh.1), hcnt2, if_neg hq,
                hbq hq]
              exact hcnt q r
  have htr' : ∀ q,
      tracePlay (subtrace q (changeEnterStage (setLogic st1 sid newl) sid newl).ltrace) =
      some (logicOf (changeEnterStage (setLogic st1 sid newl) sid newl) q) := by
    intro q
    rw [hlt]
    by_cases hq : q = sid
    · subst hq
      have hbase := htr q
      have hsub1 : subtrace q [enterSeg q newl] = [(enterSeg q newl).2] := by
        cases newl <;> simp [enterSeg, subtrace]
      cases hlog0 : logicOf st q with
      | none =>
          rw [hlog0] at hbase
          have h1 : subtrace q (st.ltrace ++ leaveSeg q none ++ [enterSeg q newl])
              = subtrace q st.ltrace ++ [(enterSeg q newl).2] := by
            rw [subtrace_append, subtrace_append, hsub1]
            have h0 : subtrace q (leaveSeg q none) = [] := by simp [leaveSeg, subtrace]
            rw [h0, List.append_nil]
          rw [h1, tracePlay_snoc, hbase, hlog']
          cases newl <;> simp [applyLEv, enterSeg]
      | some l =>
          rw [hlog0] at hbase
          have h1 : subtrace q (st.ltrace ++ leaveSeg q (some l) ++ [enterSeg q newl])
              = (subtrace q st.ltrace ++ [LKind.leave l]) ++ [(enterSeg q newl).2] := by
            rw [subtrace_append, subtrace_append, hsub1]
            have h0 : subtrace q (leaveSeg q (some l)) = [LKind.leave l] := by
              simp only [leaveSeg]
              exact subtrace_single_self q _
            rw [h0]
          rw [h1, tracePlay_snoc, tracePlay_snoc, hbase, hlog']
          cases newl <;> simp [applyLEv, enterSeg]
    · rw [subtrace_append, subtrace_append]
      have hsub1 : subtrace q [enterSeg sid newl] = [] := by
        cases newl <;> exact subtrace_single_ne (fun hh => hq hh.symm) _
      have hsub2 : subtrace q (leaveSeg sid (logicOf st sid)) = [] := by
        cases logicOf st sid with
        | none => simp [leaveSeg, subtrace]
        | some l => exact subtrace_single_ne (fun hh => hq hh.symm) _
      rw [hsub1, hsub2, List.append_nil, List.append_nil, htr q, hlogq' q hq]
  refine ⟨changeEnterStage (setLogic st1 sid newl) sid newl, hok,
    ⟨hcnt', ?_, ?_, ?_, htr'⟩, hlog', hlogq', huser', ?_, ?_, ?_, ?_, ?_, hlt⟩
  · rw [e_keys, setLogic_rooms, h1keys]
    exact hndk
  · intro k hk
    rw [e_keys, setLogic_rooms, h1keys] at hk
    exact hsp k hk
  · cases hnl : newl with
    | none =>
        subst hnl
        obtain ⟨hcn, _⟩ := e_quit rfl
        rw [hcn, setLogic_clientnames, h1cn]
        exact nodup_removeFirst _ hndc
    | some l =>
        subst hnl
        obtain ⟨hcn, _⟩ := e_keep (fun hh => nomatch hh)
        rw [hcn, setLogic_clientnames, h1cn]
        exact hndc
  · rw [e_sn, setLogic_sname, h1sn]
  · rw [e_now, setLogic_now, h1now]
  · rw [e_keys, setLogic_rooms, h1keys]
  · intro hnl
    obtain ⟨hcn, has⟩ := e_quit hnl
    constructor
    · rw [hcn, setLogic_clientnames, h1cn, huser2 sid]
    · rw [has, setLogic_allsessions, h1as]
  · intro hnl
    obtain ⟨hcn, has⟩ := e_keep hnl
    constructor
    · rw [hcn, setLogic_clientnames, h1cn]
    · rw [has, setLogic_allsessions, h1as]

theorem nodup_append_single {α : Type} {l : List α} {d : α}
    (h : l.Nodup) (hd : d ∉ l) : (l ++ [d]).Nodup := by
  rw [List.nodup_append]
  refine ⟨h, List.nodup_singleton d, ?_⟩
  intro x hx hs
  simp only [List.mem_singleton] at hs
  subst hs
  exact hd hx

theorem SInv_setOutput (st : ServerState) (o : List (Nat × String)) (h : SInv st) :
    SInv { st with output := o } := by
  obtain ⟨hcnt, hndk, hsp, hndc, htr⟩ := h
  refine ⟨?_, hndk, hsp, hndc, htr⟩
  intro q r
  have hm : roomMembers { st with output := o } r = roomMembers st r := by cases r <;> rfl
  rw [hm]
  exact hcnt q r

theorem SInv_push (st : ServerState) (sid : Nat) (t : String) (h : SInv st) :
    SInv (push st sid t) := SInv_setOutput st _ h

theorem SInv_setNow (st : ServerState) (t : String) (h : SInv st) :
    SInv { st with now := t } := by
  obtain ⟨hcnt, hndk, hsp, hndc, htr⟩ := h
  refine ⟨?_, hndk, hsp, hndc, htr⟩
  intro q r
  have hm : roomMembers { st with now := t } r = roomMembers st r := by cases r <;> rfl
  rw [hm]
  exact hcnt q r

theorem logicOf_isSome_exists {st : ServerState} {sid : Nat}
    (h : (logicOf st sid).isSome = true) :
    ∃ s, alookup sid st.sessions = some s ∧ s.logic = logicOf st sid := by
  unfold logicOf sessionOf at *
  cases hx : alookup sid st.sessions with
  | none => rw [hx] at h; simp at h
  | some s => exact ⟨s, rfl, by simp⟩

theorem SInv_init (nm : String) : SInv (initState nm) := by
  refine ⟨?_, ?_, ?_, ?_, ?_⟩
  · intro q r
    have hm : roomMembers (initState nm) r = [] := by
      cases r with
      | hall => rfl
      | user n => simp [roomMembers, initState, alookup]
    have hb : boundRoom (initState nm) q = none := by
      simp [boundRoom, logicOf, sessionOf, initState, alookup]
    rw [hm, hb]
    simp
  · simp [initState]
  · simp [initState]
  · simp [initState]
  · intro q
    have hb : logicOf (initState nm) q = none := by
      simp [logicOf, sessionOf, initState, alookup]
    rw [hb]
    simp [initState, subtrace, tracePlay]

theorem SInv_add_room (st : ServerState) (roomname : String) (h : SInv st)
    (hsp0 : ' ' ∉ roomname.data) : SInv (add_room st roomname) := by
  obtain ⟨hcnt, hndk, hsp, hndc, htr⟩ := h
  cases hx : alookup roomname st.rooms with
  | some v => rw [add_room, hx]; exact ⟨hcnt, hndk, hsp, hndc, htr⟩
  | none =>
      rw [add_room, hx]
      have hmem : ∀ r, roomMembers { st with rooms := st.rooms ++ [(roomname, [])] } r
          = roomMembers st r := by
        intro r
        cases r with
        | hall => rfl
        | user n =>
            simp only [roomMembers]
            rw [alookup_append]
            cases hy : alookup n st.rooms with
            | some v => simp
            | none =>
                simp only [alookup]
                by_cases hn : n = roomname
                · by_cases hrn : roomname = n <;> simp [hrn]
                · rw [if_neg (fun hh : roomname = n => hn hh.symm)]
      refine ⟨?_, ?_, ?_, hndc, htr⟩
      · intro q r
        rw [hmem r]
        exact hcnt q r
      · simp only [List.map_append, List.map_cons, List.map_nil]
        exact nodup_append_single hndk ((alookup_eq_none_iff roomname st.rooms).mp hx)
      · intro k hk
        simp only [List.map_append, List.map_cons, List.map_nil, List.mem_append,
          List.mem_singleton] at hk
        cases hk with
        | inl hh => exact hsp k hh
        | inr hh => rw [hh]; exact hsp0

theorem SInv_del_room (st : ServerState) (roomname : String) (h : SInv st)
    (hx : alookup roomname st.rooms = some []) :
    SInv { st with rooms := adel roomname st.rooms } := by
  obtain ⟨hcnt, hndk, hsp, hndc, htr⟩ := h
  have hmem : ∀ r, roomMembers { st with rooms := adel roomname st.rooms } r
      = roomMembers st r := by
    intro r
    cases r with
    | hall => rfl
    | user n =>
        simp only [roomMembers]
        by_cases hn : n = roomname
        · subst hn
          rw [alookup_adel_self n hndk, hx]
          simp
        · rw [alookup_adel_ne hn]
  refine ⟨?_, ?_, ?_, hndc, htr⟩
  · intro q r
    rw [hmem r]
    exact hcnt q r
  · rw [map_fst_adel]
    exact nodup_removeFirst _ hndk
  · intro k hk
    rw [map_fst_adel] at hk
    exact hsp k ((removeFirst_sublist roomname (st.rooms.map Prod.fst)).mem hk)

theorem SInv_broadcast (st : ServerState) (r : RoomRef) (w : String) (h : SInv st) :
    SInv (broadcast st r w) := by
  unfold broadcast
  exact SInv_setOutput st _ h

theorem dispatchAction_SInv (st : ServerState) (r : RoomRef) (sid : Nat) (action : String)
    (rest : List String) (s : SessionSt) (hs : alookup sid st.sessions = some s)
    (hInv : SInv st) (hsp1 : ∀ x, rest.head? = some x → ' ' ∉ x.data) (st' : ServerState)
    (heq : dispatchAction st r sid action rest = Except.ok st') : SInv st' := by
  unfold dispatchAction at heq
  by_cases h1 : action = "quit"
  · rw [if_pos h1, do_quit] at heq
    obtain ⟨st2, hok, hI, _, _, _, _, _, _, _, _, _⟩ :=
      change_logic_spec (push st sid "Bye!\n") sid none s (by simpa using hs)
        (SInv_push st sid _ hInv) (fun n hh => nomatch hh)
    rw [hok] at heq
    injection heq with hh
    rw [← hh]
    exact hI
  rw [if_neg h1] at heq
  by_cases h2 : action = "who"
  · rw [if_pos h2, do_who] at heq
    injection heq with hh
    rw [← hh]
    exact SInv_setOutput st _ hInv
  rw [if_neg h2] at heq
  by_cases h3 : action = "addroom"
  · rw [if_pos h3] at heq
    cases rest with
    | nil => rw [do_addroom] at heq; exact nomatch heq
    | cons roomname rest2 =>
        rw [do_addroom] at heq
        injection heq with hh
        rw [← hh]
        exact SInv_push _ _ _ (SInv_add_room st roomname hInv (hsp1 roomname rfl))
  rw [if_neg h3] at heq
  by_cases h4 : action = "gotoroom"
  · rw [if_pos h4] at heq
    cases rest with
    | nil => rw [do_gotoroom] at heq; exact nomatch heq
    | cons roomname rest2 =>
        rw [do_gotoroom] at heq
        cases hx : alookup roomname st.rooms with
        | none =>
            rw [hx] at heq
            injection heq with hh
            rw [← hh]
            exact SInv_push st _ _ hInv
        | some v =>
            rw [hx] at heq
            have hnew : ∀ n, (some (LogicRef.roomL (RoomRef.user roomname)) : Option LogicRef)
                = some (LogicRef.roomL (RoomRef.user n)) →
                (alookup n st.rooms).isSome = true := by
              intro n hh
              injection hh with h5
              injection h5 with h6
              injection h6 with h7
              rw [← h7, hx]
              rfl
            obtain ⟨st2, hok, hI, _, _, _, _, _, _, _, _, _⟩ :=
              change_logic_spec st sid (some (LogicRef.roomL (RoomRef.user roomname)))
                s hs hInv hnew
            rw [hok] at heq
            injection heq with hh
            rw [← hh]
            exact hI
  rw [if_neg h4] at heq
  by_cases h5 : action = "delroom"
  · rw [if_pos h5] at heq
    cases rest with
    | nil => rw [do_delroom] at heq; exact nomatch heq
    | cons roomname rest2 =>
        rw [do_delroom] at heq
        cases hx : alookup roomname st.rooms with
        | none =>
            rw [hx] at heq
            injection heq with hh
            rw [← hh]
            exact SInv_push st _ _ hInv
        | some members =>
            simp only [hx] at heq
            by_cases hme : members = []
            · rw [if_pos hme] at heq
              injection heq with hh
              rw [← hh]
              have hx0 : alookup roomname st.rooms = some [] := by
                rw [hx, hme]
              exact SInv_push _ _ _ (SInv_del_room st roomname hInv hx0)
            · rw [if_neg hme] at heq
              injection heq with hh
              rw [← hh]
              exact SInv_push st _ _ hInv
  rw [if_neg h5] at heq
  by_cases h6 : action = "roomlist"
  · rw [if_pos h6, do_roomlist] at heq
    injection heq with hh
    rw [← hh]
    exact SInv_setOutput st _ hInv
  rw [if_neg h6] at heq
  by_cases h7 : action = "hall"
  · rw [if_pos h7, do_hall] at heq
    have hnew : ∀ n, (some (LogicRef.roomL RoomRef.hall) : Option LogicRef)
        = some (LogicRef.roomL (RoomRef.user n)) →
        (alookup n st.rooms).isSome = true := by
      intro n hh
      injection hh with h8
      injection h8 with h9
      exact nomatch h9
    obtain ⟨st2, hok, hI, _, _, _, _, _, _, _, _, _⟩ :=
      change_logic_spec st sid (some (LogicRef.roomL RoomRef.hall)) s hs hInv hnew
    rw [hok] at heq
    injection heq with hh
    rw [← hh]
    exact hI
  rw [if_neg h7] at heq
  by_cases h8 : action = "help"
  · rw [if_pos h8, do_help] at heq
    injection heq with hh
    rw [← hh]
    exact SInv_push st _ _ hInv
  rw [if_neg h8] at heq
  injection heq with hh
  rw [← hh]
  exact SInv_push st _ _ hInv

theorem roomData_SInv (st : ServerState) (r : RoomRef) (sid : Nat) (d : String)
    (s : SessionSt) (hs : alookup sid st.sessions = some s) (hInv : SInv st)
    (st' : ServerState) (heq : roomData st r sid d = Except.ok st') : SInv st' := by
  unfold roomData at heq
  by_cases h0 : d = ""
  · rw [if_pos h0] at heq
    injection heq with hh
    rw [← hh]
    exact hInv
  rw [if_neg h0] at heq
  by_cases h1 : d.data.head? = some '/'
  · rw [if_pos h1] at heq
    cases hsplit : pySplitSpace (String.mk d.data.tail) 5 with
    | nil =>
        rw [hsplit] at heq
        injection heq with hh
        rw [← hh]
        exact hInv
    | cons action rest =>
        rw [hsplit] at heq
        refine dispatchAction_SInv st r sid action rest s hs hInv ?_ st' heq
        intro x hx
        have hg : (pySplitSpace (String.mk d.data.tail) 5).get? 1 = some x := by
          rw [hsplit]
          cases rest with
          | nil => cases hx
          | cons y ys =>
              simp only [List.head?_cons, Option.some.injEq] at hx
              simp [hx]
        exact pySplitSpace_get_no_space _ _ 1 x (by omega) hg
  · rw [if_neg h1] at heq
    injection heq with hh
    rw [← hh]
    exact SInv_broadcast st r _ hInv

theorem nameData_SInv (st : ServerState) (sid : Nat) (d : String) (s : SessionSt)
    (hs : alookup sid st.sessions = some s) (hInv : SInv st) (st' : ServerState)
    (heq : nameData st sid d = Except.ok st') : SInv st' := by
  unfold nameData at heq
  by_cases h0 : d = ""
  · rw [if_pos h0] at heq
    injection heq with hh
    rw [← hh]
    exact SInv_push st _ _ hInv
  rw [if_neg h0] at heq
  by_cases h1 : d ∈ st.clientnames
  · rw [if_pos h1] at heq
    injection heq with hh
    rw [← hh]
    exact SInv_push st _ _ hInv
  · rw [if_neg h1] at heq
    obtain ⟨hcnt, hndk, hsp, hndc, htr⟩ := hInv
    have hmem : ∀ r, roomMembers (setUsername
        { st with clientnames := st.clientnames ++ [d] } sid d) r = roomMembers st r := by
      intro r
      rw [roomMembers_setUsername]
      cases r <;> rfl
    have hlg : ∀ q, logicOf (setUsername
        { st with clientnames := st.clientnames ++ [d] } sid d) q = logicOf st q := by
      intro q
      rw [logicOf_setUsername]
      rfl
    have hInvB : SInv (setUsername { st with clientnames := st.clientnames ++ [d] } sid d) := by
      refine ⟨?_, ?_, ?_, ?_, ?_⟩
      · intro q r
        rw [hmem r, boundRoom_congr (hlg q)]
        exact hcnt q r
      · exact hndk
      · exact hsp
      · simp only [setUsername_clientnames]
        exact nodup_append_single hndc h1
      · intro q
        rw [hlg q]
        exact htr q
    have hsB : alookup sid (setUsername
        { st with clientnames := st.clientnames ++ [d] } sid d).sessions
        = some { s with username := d } := by
      rw [alookup_setUsername]
      simp only [if_pos rfl]
      have : alookup sid ({ st with clientnames := st.clientnames ++ [d] } :
          ServerState).sessions = some s := hs
      rw [this]
      rfl
    have hnewB : ∀ n, (some (LogicRef.roomL RoomRef.hall) : Option LogicRef)
        = some (LogicRef.roomL (RoomRef.user n)) →
        (alookup n (setUsername { st with clientnames := st.clientnames ++ [d] }
          sid d).rooms).isSome = true := by
      intro n hh
      injection hh with h2
      injection h2 with h3
      exact nomatch h3
    obtain ⟨st2, hok, hI, _, _, _, _, _, _, _, _, _⟩ :=
      change_logic_spec _ sid (some (LogicRef.roomL RoomRef.hall))
        { s with username := d } hsB hInvB hnewB
    rw [hok] at heq
    injection heq with hh
    rw [← hh]
    exact hI

theorem submit_line_SInv (st : ServerState) (sid : Nat) (line : String) (st' : ServerState)
    (hw : (logicOf st sid).isSome = true) (hInv : SInv st)
    (heq : submit_line st sid line = Except.ok st') : SInv st' := by
  obtain ⟨s, hs, hsl⟩ := logicOf_isSome_exists hw
  unfold submit_line at heq
  cases hl : logicOf st sid with
  | none => rw [hl] at heq; exact nomatch heq
  | some l =>
      rw [hl] at heq
      cases l with
      | nameMgr => exact nameData_SInv st sid line s hs hInv st' heq
      | roomL r => exact roomData_SInv st r sid line s hs hInv st' heq

theorem step_SInv (st : ServerState) (e : Ev) (st' : ServerState) (hInv : SInv st)
    (hw : wfEv st e = true) (heq : step st e = Except.ok st') : SInv st' := by
  cases e with
  | connect sid =>
      simp only [wfEv, Option.isNone_iff_eq_none] at hw
      simp only [step, on_connect] at heq
      have hse : ({ st with
          sessions := st.sessions ++ [(sid, { username := "anonymous", logic := none })],
          allsessions := st.allsessions ++ [sid] } : ServerState).sessions
          = st.sessions ++ [(sid, { username := "anonymous", logic := none })] := rfl
      have hsA : alookup sid ({ st with
          sessions := st.sessions ++ [(sid, { username := "anonymous", logic := none })],
          allsessions := st.allsessions ++ [sid] } : ServerState).sessions
          = some { username := "anonymous", logic := none } := by
        rw [hse, alookup_append, hw]
        simp [alookup]
      have hlgA : ∀ q, logicOf ({ st with
          sessions := st.sessions ++ [(sid, { username := "anonymous", logic := none })],
          allsessions := st.allsessions ++ [sid] } : ServerState) q = logicOf st q := by
        intro q
        unfold logicOf sessionOf
        rw [hse, alookup_append]
        cases hy : alookup q st.sessions with
        | some v => simp
        | none =>
            simp only [alookup]
            by_cases hq : sid = q
            · subst hq
              simp
            · rw [if_neg hq]
      obtain ⟨hcnt, hndk, hsp, hndc, htr⟩ := hInv
      have hInvA : SInv { st with
          sessions := st.sessions ++ [(sid, { username := "anonymous", logic := none })],
          allsessions := st.allsessions ++ [sid] } := by
        refine ⟨?_, hndk, hsp, hndc, ?_⟩
        · intro q r
          have hm : roomMembers ({ st with
              sessions := st.sessions ++ [(sid, { username := "anonymous", logic := none })],
              allsessions := st.allsessions ++ [sid] } : ServerState) r = roomMembers st r := by
            cases r <;> rfl
          rw [hm, boundRoom_congr (hlgA q)]
          exact hcnt q r
        · intro q
          rw [hlgA q]
          exact htr q
      have hnewA : ∀ n, (some LogicRef.nameMgr : Option LogicRef)
          = some (LogicRef.roomL (RoomRef.user n)) →
          (alookup n ({ st with
            sessions := st.sessions ++ [(sid, { username := "anonymous", logic := none })],
            allsessions := st.allsessions ++ [sid] } : ServerState).rooms).isSome = true := by
        intro n hh
        injection hh with h2
        exact nomatch h2
      obtain ⟨st2, hok, hI, _, _, _, _, _, _, _, _, _⟩ :=
        change_logic_spec _ sid (some LogicRef.nameMgr)
          { username := "anonymous", logic := none } hsA hInvA hnewA
      rw [hok] at heq
      injection heq with hh
      rw [← hh]
      exact hI
  | line sid d =>
      simp only [wfEv] at hw
      exact submit_line_SInv st sid d st' hw hInv heq
  | disconnect sid =>
      simp only [wfEv] at hw
      obtain ⟨s, hs, hsl⟩ := logicOf_isSome_exists hw
      simp only [step] at heq
      obtain ⟨st2, hok, hI, _, _, _, _, _, _, _, _, _⟩ :=
        change_logic_spec st sid none s hs hInv (fun n hh => nomatch hh)
      rw [hok] at heq
      injection heq with hh
      rw [← hh]
      exact hI
  | tick t =>
      simp only [step] at heq
      injection heq with hh
      rw [← hh]
      exact SInv_setNow st t hInv

theorem reach_inv : ∀ st, Reach st → SInv st := by
  intro st h
  induction h with
  | start nm => exact SInv_init nm
  | next st e st' hr hw hstep ih => exact step_SInv st e st' ih hw hstep

theorem reach_stepD (st : ServerState) (e : Ev) (h : Reach st) (hwf : wfEv st e = true)
    (hok : step st e = Except.ok (stepD st e)) : Reach (stepD st e) :=
  Reach.next st e (stepD st e) h hwf hok

/-- One connected session (id 1), still in name selection. -/
def c1state : ServerState :=
  { sname := "EdChat", now := "", hallMembers := [], rooms := [], clientnames := [], sessions := [(1, { username := "anonymous", logic := some (LogicRef.nameMgr) })], allsessions := [1], output := [(1, "Welcome to EdChat\nPlease input your user name >")], ltrace := [(1, LKind.enter (LogicRef.nameMgr))] }

/-- Session 1 has taken the name "bob" and entered the hall. -/
def c3state : ServerState :=
  { sname := "EdChat", now := "", hallMembers := [1], rooms := [], clientnames := ["bob"], sessions := [(1, { username := "bob", logic := some (LogicRef.roomL (RoomRef.hall)) })], allsessions := [1], output := [(1, "Welcome to EdChat\nPlease input your user name >"), (1, "Welcome to EdChat Hall\n"), (1, ": \"bob\" enters room.\n")], ltrace := [(1, LKind.enter (LogicRef.nameMgr)), (1, LKind.leave (LogicRef.nameMgr)), (1, LKind.enter (LogicRef.roomL (RoomRef.hall)))] }

/-- Session 1 registered the name "anonymous" and entered the hall. -/
def c4mid : ServerState :=
  { sname := "EdChat", now := "", hallMembers := [1], rooms := [], clientnames := ["anonymous"], sessions := [(1, { username := "anonymous", logic := some (LogicRef.roomL (RoomRef.hall)) })], allsessions := [1], output := [(1, "Welcome to EdChat\nPlease input your user name >"), (1, "Welcome to EdChat Hall\n"), (1, ": \"anonymous\" enters room.\n")], ltrace := [(1, LKind.enter (LogicRef.nameMgr)), (1, LKind.leave (LogicRef.nameMgr)), (1, LKind.enter (LogicRef.roomL (RoomRef.hall)))] }

/-- Session 1 registered the name "anonymous" and sits in the hall; session 2 connected and has not chosen a name. -/
def c4pre : ServerState :=
  { sname := "EdChat", now := "", hallMembers := [1], rooms := [], clientnames := ["anonymous"], sessions := [(1, { username := "anonymous", logic := some (LogicRef.roomL (RoomRef.hall)) }), (2, { username := "anonymous", logic := some (LogicRef.nameMgr) })], allsessions := [1, 2], output := [(1, "Welcome to EdChat\nPlease input your user name >"), (1, "Welcome to EdChat Hall\n"), (1, ": \"anonymous\" enters room.\n"), (2, "Welcome to EdChat\nPlease input your user name >")], ltrace := [(1, LKind.enter (LogicRef.nameMgr)), (1, LKind.leave (LogicRef.nameMgr)), (1, LKind.enter (LogicRef.roomL (RoomRef.hall))), (2, LKind.enter (LogicRef.nameMgr))] }

/-- `c4pre` after session 2 disconnects: the directory entry "anonymous" is gone although session 1 still holds it. -/
def c4state : ServerState :=
  { sname := "EdChat", now := "", hallMembers := [1], rooms := [], clientnames := [], sessions := [(1, { username := "anonymous", logic := some (LogicRef.roomL (RoomRef.hall)) }), (2, { username := "anonymous", logic := none })], allsessions := [1], output := [(1, "Welcome to EdChat\nPlease input your user name >"), (1, "Welcome to EdChat Hall\n"), (1, ": \"anonymous\" enters room.\n"), (2, "Welcome to EdChat\nPlease input your user name >")], ltrace := [(1, LKind.enter (LogicRef.nameMgr)), (1, LKind.leave (LogicRef.nameMgr)), (1, LKind.enter (LogicRef.roomL (RoomRef.hall))), (2, LKind.enter (LogicRef.nameMgr)), (2, LKind.leave (LogicRef.nameMgr)), (2, LKind.quitNotify)] }

/-- Session 1 ("bob", in the hall) created a room named "x". -/
def c2state : ServerState :=
  { sname := "EdChat", now := "", hallMembers := [1], rooms := [("x", [])], clientnames := ["bob"], sessions := [(1, { username := "bob", logic := some (LogicRef.roomL (RoomRef.hall)) })], allsessions := [1], output := [(1, "Welcome to EdChat\nPlease input your user name >"), (1, "Welcome to EdChat Hall\n"), (1, ": \"bob\" enters room.\n"), (1, "Info: add new room \"x\"\n")], ltrace := [(1, LKind.enter (LogicRef.nameMgr)), (1, LKind.leave (LogicRef.nameMgr)), (1, LKind.enter (LogicRef.roomL (RoomRef.hall)))] }

/-- Session 1 ("bob", in the hall) created a room named "lounge". -/
def c6state : ServerState :=
  { sname := "EdChat", now := "", hallMembers := [1], rooms := [("lounge", [])], clientnames := ["bob"], sessions := [(1, { username := "bob", logic := some (LogicRef.roomL (RoomRef.hall)) })], allsessions := [1], output := [(1, "Welcome to EdChat\nPlease input your user name >"), (1, "Welcome to EdChat Hall\n"), (1, ": \"bob\" enters room.\n"), (1, "Info: add new room \"lounge\"\n")], ltrace := [(1, LKind.enter (LogicRef.nameMgr)), (1, LKind.leave (LogicRef.nameMgr)), (1, LKind.enter (LogicRef.roomL (RoomRef.hall)))] }

/-- `c6state` after "bob" moved into "lounge". -/
def c6state2 : ServerState :=
  { sname := "EdChat", now := "", hallMembers := [], rooms := [("lounge", [1])], clientnames := ["bob"], sessions := [(1, { username := "bob", logic := some (LogicRef.roomL (RoomRef.user "lounge")) })], allsessions := [1], output := [(1, "Welcome to EdChat\nPlease input your user name >"), (1, "Welcome to EdChat Hall\n"), (1, ": \"bob\" enters room.\n"), (1, "Info: add new room \"lounge\"\n"), (1, "Welcome to lounge\n"), (1, ": \"bob\" enters room.\n")], ltrace := [(1, LKind.enter (LogicRef.nameMgr)), (1, LKind.leave (LogicRef.nameMgr)), (1, LKind.enter (LogicRef.roomL (RoomRef.hall))), (1, LKind.leave (LogicRef.roomL (RoomRef.hall))), (1, LKind.enter (LogicRef.roomL (RoomRef.user "lounge")))] }

/-- Session 1 named "alice", in the hall. -/
def s7b : ServerState :=
  { sname := "EdChat", now := "", hallMembers := [1], rooms := [], clientnames := ["alice"], sessions := [(1, { username := "alice", logic := some (LogicRef.roomL (RoomRef.hall)) })], allsessions := [1], output := [(1, "Welcome to EdChat\nPlease input your user name >"), (1, "Welcome to EdChat Hall\n"), (1, ": \"alice\" enters room.\n")], ltrace := [(1, LKind.enter (LogicRef.nameMgr)), (1, LKind.leave (LogicRef.nameMgr)), (1, LKind.enter (LogicRef.roomL (RoomRef.hall)))] }

/-- `s7b` plus session 2 in name selection. -/
def s7c : ServerState :=
  { sname := "EdChat", now := "", hallMembers := [1], rooms := [], clientnames := ["alice"], sessions := [(1, { username := "alice", logic := some (LogicRef.roomL (RoomRef.hall)) }), (2, { username := "anonymous", logic := some (LogicRef.nameMgr) })], allsessions := [1, 2], output := [(1, "Welcome to EdChat\nPlease input your user name >"), (1, "Welcome to EdChat Hall\n"), (1, ": \"alice\" enters room.\n"), (2, "Welcome to EdChat\nPlease input your user name >")], ltrace := [(1, LKind.enter (LogicRef.nameMgr)), (1, LKind.leave (LogicRef.nameMgr)), (1, LKind.enter (LogicRef.roomL (RoomRef.hall))), (2, LKind.enter (LogicRef.nameMgr))] }

/-- `s7c` after session 2 took the name "bob". -/
def s7d : ServerState :=
  { sname := "EdChat", now := "", hallMembers := [1, 2], rooms := [], clientnames := ["alice", "bob"], sessions := [(1, { username := "alice", logic := some (LogicRef.roomL (RoomRef.hall)) }), (2, { username := "bob", logic := some (LogicRef.roomL (RoomRef.hall)) })], allsessions := [1, 2], output := [(1, "Welcome to EdChat\nPlease input your user name >"), (1, "Welcome to EdChat Hall\n"), (1, ": \"alice\" enters room.\n"), (2, "Welcome to EdChat\nPlease input your user name >"), (2, "Welcome to EdChat Hall\n"), (1, ": \"bob\" enters room.\n"), (2, ": \"bob\" enters room.\n")], ltrace := [(1, LKind.enter (LogicRef.nameMgr)), (1, LKind.leave (LogicRef.nameMgr)), (1, LKind.enter (LogicRef.roomL (RoomRef.hall))), (2, LKind.enter (LogicRef.nameMgr)), (2, LKind.leave (LogicRef.nameMgr)), (2, LKind.enter (LogicRef.roomL (RoomRef.hall)))] }

/-- `s7d` plus session 3 in name selection. -/
def s7e : ServerState :=
  { sname := "EdChat", now := "", hallMembers := [1, 2], rooms := [], clientnames := ["alice", "bob"], sessions := [(1, { username := "alice", logic := some (LogicRef.roomL (RoomRef.hall)) }), (2, { username := "bob", logic := some (LogicRef.roomL (RoomRef.hall)) }), (3, { username := "anonymous", logic := some (LogicRef.nameMgr) })], allsessions := [1, 2, 3], output := [(1, "Welcome to EdChat\nPlease input your user name >"), (1, "Welcome to EdChat Hall\n"), (1, ": \"alice\" enters room.\n"), (2, "Welcome to EdChat\nPlease input your user name >"), (2, "Welcome to EdChat Hall\n"), (1, ": \"bob\" enters room.\n"), (2, ": \"bob\" enters room.\n"), (3, "Welcome to EdChat\nPlease input your user name >")], ltrace := [(1, LKind.enter (LogicRef.nameMgr)), (1, LKind.leave (LogicRef.nameMgr)), (1, LKind.enter (LogicRef.roomL (RoomRef.hall))), (2, LKind.enter (LogicRef.nameMgr)), (2, LKind.leave (LogicRef.nameMgr)), (2, LKind.enter (LogicRef.roomL (RoomRef.hall))), (3, LKind.enter (LogicRef.nameMgr))] }

/-- Three sessions named "alice", "bob", "carol", all in the hall in join order. -/
def c7state : ServerState :=
  { sname := "EdChat", now := "", hallMembers := [1, 2, 3], rooms := [], clientnames := ["alice", "bob", "carol"], sessions := [(1, { username := "alice", logic := some (LogicRef.roomL (RoomRef.hall)) }), (2, { username := "bob", logic := some (LogicRef.roomL (RoomRef.hall)) }), (3, { username := "carol", logic := some (LogicRef.roomL (RoomRef.hall)) })], allsessions := [1, 2, 3], output := [(1, "Welcome to EdChat\nPlease input your user name >"), (1, "Welcome to EdChat Hall\n"), (1, ": \"alice\" enters room.\n"), (2, "Welcome to EdChat\nPlease input your user name >"), (2, "Welcome to EdChat Hall\n"), (1, ": \"bob\" enters room.\n"), (2, ": \"bob\" enters room.\n"), (3, "Welcome to EdChat\nPlease input your user name >"), (3, "Welcome to EdChat Hall\n"), (1, ": \"carol\" enters room.\n"), (2, ": \"carol\" enters room.\n"), (3, ": \"carol\" enters room.\n")], ltrace := [(1, LKind.enter (LogicRef.nameMgr)), (1, LKind.leave (LogicRef.nameMgr)), (1, LKind.enter (LogicRef.roomL (RoomRef.hall))), (2, LKind.enter (LogicRef.nameMgr)), (2, LKind.leave (LogicRef.nameMgr)), (2, LKind.enter (LogicRef.roomL (RoomRef.hall))), (3, LKind.enter (LogicRef.nameMgr)), (3, LKind.leave (LogicRef.nameMgr)), (3, LKind.enter (LogicRef.roomL (RoomRef.hall)))] }

/-- Session 1 is "bob" in the hall; session 2 is still in name selection. -/
def c5wstate : ServerState :=
  { sname := "EdChat", now := "", hallMembers := [1], rooms := [], clientnames := ["bob"], sessions := [(1, { username := "bob", logic := some (LogicRef.roomL (RoomRef.hall)) }), (2, { username := "anonymous", logic := some (LogicRef.nameMgr) })], allsessions := [1, 2], output := [(1, "Welcome to EdChat\nPlease input your user name >"), (1, "Welcome to EdChat Hall\n"), (1, ": \"bob\" enters room.\n"), (2, "Welcome to EdChat\nPlease input your user name >")], ltrace := [(1, LKind.enter (LogicRef.nameMgr)), (1, LKind.leave (LogicRef.nameMgr)), (1, LKind.enter (LogicRef.roomL (RoomRef.hall))), (2, LKind.enter (LogicRef.nameMgr))] }

theorem c1state_reach : Reach c1state :=
  Reach.next (initState "EdChat") (Ev.connect 1) c1state (Reach.start "EdChat")
    (by decide) (by decide)

theorem c3state_reach : Reach c3state :=
  Reach.next c1state (Ev.line 1 "bob") c3state c1state_reach (by decide) (by decide)

theorem c4mid_reach : Reach c4mid :=
  Reach.next c1state (Ev.line 1 "anonymous") c4mid c1state_reach (by decide) (by decide)

theorem c4pre_reach : Reach c4pre :=
  Reach.next c4mid (Ev.connect 2) c4pre c4mid_reach (by decide) (by decide)

theorem c4state_reach : Reach c4state :=
  Reach.next c4pre (Ev.disconnect 2) c4state c4pre_reach (by decide) (by decide)

theorem c2state_reach : Reach c2state :=
  Reach.next c3state (Ev.line 1 "/addroom x") c2state c3state_reach (by decide) (by decide)

theorem c6state_reach : Reach c6state :=
  Reach.next c3state (Ev.line 1 "/addroom lounge") c6state c3state_reach (by decide) (by decide)

theorem c6state2_reach : Reach c6state2 :=
  Reach.next c6state (Ev.line 1 "/gotoroom lounge") c6state2 c6state_reach (by decide) (by decide)

theorem s7b_reach : Reach s7b :=
  Reach.next c1state (Ev.line 1 "alice") s7b c1state_reach (by decide) (by decide)

theorem s7c_reach : Reach s7c :=
  Reach.next s7b (Ev.connect 2) s7c s7b_reach (by decide) (by decide)

theorem s7d_reach : Reach s7d :=
  Reach.next s7c (Ev.line 2 "bob") s7d s7c_reach (by decide) (by decide)

theorem s7e_reach : Reach s7e :=
  Reach.next s7d (Ev.connect 3) s7e s7d_reach (by decide) (by decide)

theorem c7state_reach : Reach c7state :=
  Reach.next s7e (Ev.line 3 "carol") c7state s7e_reach (by decide) (by decide)

theorem c5wstate_reach : Reach c5wstate :=
  Reach.next c3state (Ev.connect 2) c5wstate c3state_reach (by decide) (by decide)

theorem add_room_present {st : ServerState} {n : String}
    (h : (alookup n st.rooms).isSome = true) : add_room st n = st := by
  cases hx : alookup n st.rooms with
  | none => rw [hx] at h; exact absurd h (by simp)
  | some v => rw [add_room, hx]

theorem add_room_absent {st : ServerState} {n : String}
    (h : alookup n st.rooms = none) :
    add_room st n = { st with rooms := st.rooms ++ [(n, [])] } := by
  rw [add_room, h]

theorem alookup_add_room_self (st : ServerState) (n : String) :
    (alookup n (add_room st n).rooms).isSome = true := by
  cases hx : alookup n st.rooms with
  | some v =>
      rw [add_room_present (by rw [hx]; rfl), hx]
      rfl
  | none =>
      rw [add_room_absent hx]
      show (alookup n (st.rooms ++ [(n, [])])).isSome = true
      rw [alookup_append, hx]
      simp [alookup]

/-- The full text pushed to each member for a chat line: the format string
`'%s: "%s" says:\n%s\n'` of `handle_client_data` plus the newline appended by `__broadcast`. -/
def saysMsg (st : ServerState) (sid : Nat) (data : String) : String :=
  st.now ++ ": \"" ++ usernameOf st sid ++ "\" says:\n" ++ data ++ "\n" ++ "\n"

/-- C2 (amended): a `/`-command line is split by `string.split(data[1:], ' ', 5)` on each
single space, at most 5 splits, so at most 6 tokens result (action plus up to 5 arguments),
the result is never empty, and every token other than the final one is space-free (an
argument containing an embedded space is only possible as the final token). Consecutive
spaces yield empty argument tokens (see the counterexample), not a single separator. -/
theorem c2_split_amended : ∀ s : String,
    (pySplitSpace s 5).length ≤ 6 ∧
    (∀ i x, i < 5 → (pySplitSpace s 5).get? i = some x → ' ' ∉ x.data) ∧
    pySplitSpace s 5 ≠ [] := by
  intro s
  exact ⟨pySplitSpace_length s 5, fun i x hi hx => pySplitSpace_get_no_space s 5 i x hi hx,
    pySplitSpace_ne_nil s 5⟩

/-- C2 witness: concrete instantiation of the amended splitting bounds. -/
theorem c2_split_amended_witness :
    (pySplitSpace "gotoroom lounge" 5).length ≤ 6 ∧ ' ' ∉ ("lounge" : String).data :=
  ⟨(c2_split_amended "gotoroom lounge").1,
   (c2_split_amended "gotoroom lounge").2.1 1 "lounge" (by decide) (by decide)⟩

/-- C2 counterexample: consecutive spaces do not act as a single separator — they produce
an empty argument token, and `/gotoroom  x` (two spaces) looks up the room named `""`
instead of `"x"`, failing even though room `"x"` exists. -/
theorem c2_counterexample :
    pySplitSpace "gotoroom  x" 5 = ["gotoroom", "", "x"] ∧
    "" ∈ (pySplitSpace "gotoroom  x" 5).tail ∧
    (alookup "x" c2state.rooms).isSome = true ∧
    submit_line c2state 1 "/gotoroom  x" =
      Except.ok (push c2state 1 "Error: no such room.\n") := by
  refine ⟨by decide, by decide, by decide, by decide⟩

/-- C7: a non-empty, non-command line from member `b` of a room with member list
`[a, b, c]` is pushed exactly once to each of `a`, `b`, `c`, in member-list order,
formatted with the sender's display name and the timestamp; an empty line has no
effect at all. -/
theorem c7_broadcast : ∀ st rr a b c data,
    roomMembers st rr = [a, b, c] → data ≠ "" → data.data.head? ≠ some '/' →
    roomData st rr b data = Except.ok { st with output :=
      st.output ++ [(a, saysMsg st b data), (b, saysMsg st b data), (c, saysMsg st b data)] } ∧
    roomData st rr b "" = Except.ok st := by
  intro st rr a b c data hm hne hns
  constructor
  · unfold roomData
    rw [if_neg hne, if_neg hns]
    unfold broadcast
    rw [hm]
    simp [saysMsg]
  · simp [roomData]

/-- C7 witness: the three-member hall of `c7state` receives "bob"'s line in join order. -/
theorem c7_broadcast_witness :
    roomData c7state RoomRef.hall 2 "hello" = Except.ok { c7state with output :=
      c7state.output ++ [(1, saysMsg c7state 2 "hello"), (2, saysMsg c7state 2 "hello"),
        (3, saysMsg c7state 2 "hello")] } ∧
    roomData c7state RoomRef.hall 2 "" = Except.ok c7state :=
  c7_broadcast c7state RoomRef.hall 1 2 3 "hello" (by decide) (by decide) (by decide)

/-- C9: room creation is idempotent — `add_room` is a no-op when the name is present,
inserts an empty room when absent, and applying it twice equals applying it once; the
`/addroom` handler pushes its confirmation line to the issuer in both cases. -/
theorem c9_addroom_idempotent : ∀ (st : ServerState) (n : String) (r : RoomRef)
    (sid : Nat) (rest : List String),
    add_room (add_room st n) n = add_room st n ∧
    ((alookup n st.rooms).isSome = true → add_room st n = st) ∧
    (alookup n st.rooms = none → (add_room st n).rooms = st.rooms ++ [(n, [])]) ∧
    do_addroom st r sid (n :: rest) =
      Except.ok (push (add_room st n) sid ("Info: add new room \"" ++ n ++ "\"\n")) := by
  intro st n r sid rest
  refine ⟨add_room_present (alookup_add_room_self st n), fun h => add_room_present h,
    fun h => ?_, rfl⟩
  rw [add_room_absent h]

/-- C9 witness: re-adding the existing "lounge" is a no-op yet still confirms; adding a
fresh "y" appends an empty room. -/
theorem c9_addroom_idempotent_witness :
    add_room (add_room c6state "lounge") "lounge" = add_room c6state "lounge" ∧
    add_room c6state "lounge" = c6state ∧
    (add_room c3state "y").rooms = c3state.rooms ++ [("y", [])] ∧
    do_addroom c6state RoomRef.hall 1 ["lounge"] =
      Except.ok (push (add_room c6state "lounge") 1 "Info: add new room \"lounge\"\n") :=
  ⟨(c9_addroom_idempotent c6state "lounge" RoomRef.hall 1 []).1,
   (c9_addroom_idempotent c6state "lounge" RoomRef.hall 1 []).2.1 (by decide),
   (c9_addroom_idempotent c3state "y" RoomRef.hall 1 []).2.2.1 (by decide),
   (c9_addroom_idempotent c6state "lounge" RoomRef.hall 1 []).2.2.2⟩

/-- C6: `/delroom X` pushes exactly one "no such room" error when X is unregistered and
one distinct "not empty" error while X has a member — both leaving every session's Logic
binding and every room's membership untouched — and otherwise removes X, after which
`/gotoroom X` fails with the no-such-room error. -/
theorem c6_delroom : ∀ (st : ServerState) (r : RoomRef) (sid : Nat) (n : String)
    (rest : List String), Reach st →
    (alookup n st.rooms = none →
      do_delroom st r sid (n :: rest) =
        Except.ok (push st sid ("Error: no such room \"" ++ n ++ "\"\n")) ∧
      (∀ q, logicOf (push st sid ("Error: no such room \"" ++ n ++ "\"\n")) q = logicOf st q) ∧
      (∀ rr, roomMembers (push st sid ("Error: no such room \"" ++ n ++ "\"\n")) rr
        = roomMembers st rr)) ∧
    (∀ l, alookup n st.rooms = some l → l ≠ [] →
      do_delroom st r sid (n :: rest) =
        Except.ok (push st sid ("Error: room \"" ++ n ++ "\" is not empty, can not delete it\n")) ∧
      (∀ q, logicOf (push st sid ("Error: room \"" ++ n ++ "\" is not empty, can not delete it\n")) q
        = logicOf st q) ∧
      (∀ rr, roomMembers (push st sid ("Error: room \"" ++ n ++ "\" is not empty, can not delete it\n")) rr
        = roomMembers st rr)) ∧
    (alookup n st.rooms = some [] →
      ∃ st', do_delroom st r sid (n :: rest) = Except.ok st' ∧
        alookup n st'.rooms = none ∧
        st'.output = st.output ++ [(sid, "Info: delete room \"" ++ n ++ "\"\n")] ∧
        (∀ sid2 rest2, do_gotoroom st' r sid2 (n :: rest2) =
          Except.ok (push st' sid2 "Error: no such room.\n"))) := by
  intro st r sid n rest hr
  refine ⟨?_, ?_, ?_⟩
  · intro hx
    refine ⟨?_, fun q => rfl, fun rr => by simp⟩
    rw [do_delroom, hx]
  · intro l hx hl
    refine ⟨?_, fun q => rfl, fun rr => by simp⟩
    rw [do_delroom]
    simp only [hx]
    rw [if_neg hl]
  · intro hx
    have hndk := (reach_inv st hr).2.1
    have hdel : alookup n ({ st with rooms := adel n st.rooms } : ServerState).rooms = none := by
      show alookup n (adel n st.rooms) = none
      exact alookup_adel_self n hndk
    refine ⟨push { st with rooms := adel n st.rooms } sid ("Info: delete room \"" ++ n ++ "\"\n"),
      ?_, ?_, by simp, ?_⟩
    · rw [do_delroom]
      simp [hx]
    · simpa using hdel
    · intro sid2 rest2
      rw [do_gotoroom]
      have : alookup n (push { st with rooms := adel n st.rooms } sid
          ("Info: delete room \"" ++ n ++ "\"\n")).rooms = none := by
        simpa using hdel
      simp only [this]

/-- C6 witness: deleting the absent room "nosuch", the occupied "lounge" (c6state2) and
the empty "lounge" (c6state). -/
theorem c6_delroom_witness :
    (do_delroom c6state RoomRef.hall 1 ["nosuch"] =
      Except.ok (push c6state 1 "Error: no such room \"nosuch\"\n")) ∧
    (do_delroom c6state2 (RoomRef.user "lounge") 1 ["lounge"] =
      Except.ok (push c6state2 1 "Error: room \"lounge\" is not empty, can not delete it\n")) ∧
    (∃ st', do_delroom c6state RoomRef.hall 1 ["lounge"] = Except.ok st' ∧
      alookup "lounge" st'.rooms = none ∧
      st'.output = c6state.output ++ [(1, "Info: delete room \"lounge\"\n")] ∧
      (∀ sid2 rest2, do_gotoroom st' RoomRef.hall sid2 ("lounge" :: rest2) =
        Except.ok (push st' sid2 "Error: no such room.\n"))) :=
  ⟨((c6_delroom c6state RoomRef.hall 1 "nosuch" [] c6state_reach).1 (by decide)).1,
   ((c6_delroom c6state2 (RoomRef.user "lounge") 1 "lounge" [] c6state2_reach).2.1 [1]
      (by decide) (by decide)).1,
   (c6_delroom c6state RoomRef.hall 1 "lounge" [] c6state_reach).2.2 (by decide)⟩

/-- C10: in every reachable state the hall is never an entry of the user-room registry —
its name (server name + " Hall") contains a space while every registry key is space-free —
so `/roomlist` never lists it and `/gotoroom` or `/delroom` given the hall's exact name
push the no-such-room error. -/
theorem c10_hall_not_in_registry : ∀ (st : ServerState) (r : RoomRef) (sid : Nat)
    (rest : List String), Reach st →
    alookup (hallName st) st.rooms = none ∧
    (∀ p ∈ st.rooms, p.1 ≠ hallName st) ∧
    do_gotoroom st r sid (hallName st :: rest) =
      Except.ok (push st sid "Error: no such room.\n") ∧
    do_delroom st r sid (hallName st :: rest) =
      Except.ok (push st sid ("Error: no such room \"" ++ hallName st ++ "\"\n")) := by
  intro st r sid rest hr
  have hsp := (reach_inv st hr).2.2.1
  have hspace : ' ' ∈ (hallName st).data := by
    rw [hallName, String.data_append]
    exact List.mem_append_right _ (by decide)
  have hnot : hallName st ∉ st.rooms.map Prod.fst := by
    intro hmem
    exact hsp (hallName st) hmem hspace
  have hnone : alookup (hallName st) st.rooms = none :=
    (alookup_eq_none_iff (hallName st) st.rooms).mpr hnot
  refine ⟨hnone, ?_, ?_, ?_⟩
  · intro p hp hcontra
    apply hnot
    rw [← hcontra]
    exact List.mem_map_of_mem Prod.fst hp
  · rw [do_gotoroom, hnone]
  · rw [do_delroom, hnone]

/-- C10 witness: in `c6state` (registry {"lounge"}) the hall name "EdChat Hall" is
unresolvable and both commands fail with the no-such-room error. -/
theorem c10_hall_witness :
    alookup (hallName c6state) c6state.rooms = none ∧
    (∀ p ∈ c6state.rooms, p.1 ≠ hallName c6state) ∧
    do_gotoroom c6state RoomRef.hall 1 (hallName c6state :: []) =
      Except.ok (push c6state 1 "Error: no such room.\n") ∧
    do_delroom c6state RoomRef.hall 1 (hallName c6state :: []) =
      Except.ok (push c6state 1 ("Error: no such room \"" ++ hallName c6state ++ "\"\n")) :=
  c10_hall_not_in_registry c6state RoomRef.hall 1 [] c6state_reach

/-- C5: for a session bound to NameSelection, an empty line re-prompts and changes
nothing; a name already in the directory pushes the NameInUse error and re-prompt with
the directory and binding unchanged; any other name is registered, becomes the display
name, and the session is rebound to the hall — and since a fresh name only adds itself
to the directory, any sequence of distinct names from distinct sessions all succeed. -/
theorem c5_name_selection : ∀ (st : ServerState) (sid : Nat) (s : SessionSt) (data : String),
    alookup sid st.sessions = some s → s.logic = some LogicRef.nameMgr →
    (data = "" → nameData st sid data =
      Except.ok (push st sid "Please input your user name >")) ∧
    (data ≠ "" → data ∈ st.clientnames →
      nameData st sid data =
        Except.ok (push st sid "Error: name exists.\nPlease input your user name>") ∧
      logicOf (push st sid "Error: name exists.\nPlease input your user name>") sid
        = some LogicRef.nameMgr ∧
      (push st sid "Error: name exists.\nPlease input your user name>").clientnames
        = st.clientnames) ∧
    (data ≠ "" → data ∉ st.clientnames →
      ∃ st', nameData st sid data = Except.ok st' ∧
        st'.clientnames = st.clientnames ++ [data] ∧
        usernameOf st' sid = data ∧
        logicOf st' sid = some (LogicRef.roomL RoomRef.hall) ∧
        (∀ n, n ≠ data → (n ∈ st'.clientnames ↔ n ∈ st.clientnames)) ∧
        (∀ q, q ≠ sid → logicOf st' q = logicOf st q)) := by
  intro st sid s data hs hlogic
  have hlog : logicOf st sid = some LogicRef.nameMgr := by
    rw [logicOf, sessionOf, hs]
    exact hlogic
  refine ⟨fun h0 => by rw [nameData, if_pos h0], ?_, ?_⟩
  · intro h0 h1
    refine ⟨?_, ?_, rfl⟩
    · rw [nameData, if_neg h0, if_pos h1]
    · rw [logicOf_push]
      exact hlog
  · intro h0 h1
    have hsB : alookup sid (setUsername
        { st with clientnames := st.clientnames ++ [data] } sid data).sessions
        = some { s with username := data } := by
      rw [alookup_setUsername, if_pos rfl]
      have hss : alookup sid ({ st with clientnames := st.clientnames ++ [data] } :
          ServerState).sessions = some s := hs
      rw [hss]
      rfl
    have hlogB : logicOf (setUsername
        { st with clientnames := st.clientnames ++ [data] } sid data) sid
        = some LogicRef.nameMgr := by
      rw [logicOf_setUsername]
      exact hlog
    have hleave : changeLeaveStage (setUsername
        { st with clientnames := st.clientnames ++ [data] } sid data) sid
        = Except.ok (addEv (setUsername
            { st with clientnames := st.clientnames ++ [data] } sid data) sid
            (LKind.leave LogicRef.nameMgr)) := by
      rw [changeLeaveStage, hlogB]
    have hok : nameData st sid data = Except.ok (changeEnterStage
        (setLogic (addEv (setUsername
          { st with clientnames := st.clientnames ++ [data] } sid data) sid
          (LKind.leave LogicRef.nameMgr)) sid (some (LogicRef.roomL RoomRef.hall)))
        sid (some (LogicRef.roomL RoomRef.hall))) := by
      rw [nameData, if_neg h0, if_neg h1, change_logic, hleave]
    refine ⟨_, hok, ?_, ?_, ?_, ?_, ?_⟩
    · rw [show (changeEnterStage (setLogic (addEv (setUsername
          { st with clientnames := st.clientnames ++ [data] } sid data) sid
          (LKind.leave LogicRef.nameMgr)) sid (some (LogicRef.roomL RoomRef.hall)))
          sid (some (LogicRef.roomL RoomRef.hall))).clientnames
          = st.clientnames ++ [data] from by simp [changeEnterStage, broadcastUserState, roomEnter]]
    · rw [show usernameOf (changeEnterStage (setLogic (addEv (setUsername
          { st with clientnames := st.clientnames ++ [data] } sid data) sid
          (LKind.leave LogicRef.nameMgr)) sid (some (LogicRef.roomL RoomRef.hall)))
          sid (some (LogicRef.roomL RoomRef.hall))) sid
          = usernameOf (setUsername { st with clientnames := st.clientnames ++ [data] }
              sid data) sid from by simp [changeEnterStage]]
      exact usernameOf_setUsername_self data hs
    · rw [show logicOf (changeEnterStage (setLogic (addEv (setUsername
          { st with clientnames := st.clientnames ++ [data] } sid data) sid
          (LKind.leave LogicRef.nameMgr)) sid (some (LogicRef.roomL RoomRef.hall)))
          sid (some (LogicRef.roomL RoomRef.hall))) sid
          = logicOf (setLogic (addEv (setUsername
              { st with clientnames := st.clientnames ++ [data] } sid data) sid
              (LKind.leave LogicRef.nameMgr)) sid (some (LogicRef.roomL RoomRef.hall))) sid
          from by simp [changeEnterStage]]
      exact logicOf_setLogic_self _ (by simpa using hsB)
    · intro n hn
      rw [show (changeEnterStage (setLogic (addEv (setUsername
          { st with clientnames := st.clientnames ++ [data] } sid data) sid
          (LKind.leave LogicRef.nameMgr)) sid (some (LogicRef.roomL RoomRef.hall)))
          sid (some (LogicRef.roomL RoomRef.hall))).clientnames
          = st.clientnames ++ [data] from by simp [changeEnterStage, broadcastUserState, roomEnter]]
      simp [hn]
    · intro q hq
      rw [show logicOf (changeEnterStage (setLogic (addEv (setUsername
          { st with clientnames := st.clientnames ++ [data] } sid data) sid
          (LKind.leave LogicRef.nameMgr)) sid (some (LogicRef.roomL RoomRef.hall)))
          sid (some (LogicRef.roomL RoomRef.hall))) q
          = logicOf (setLogic (addEv (setUsername
              { st with clientnames := st.clientnames ++ [data] } sid data) sid
              (LKind.leave LogicRef.nameMgr)) sid (some (LogicRef.roomL RoomRef.hall))) q
          from by simp [changeEnterStage]]
      rw [logicOf_setLogic_ne hq, logicOf_addEv, logicOf_setUsername]
      rfl

/-- C5 witness: in `c5wstate`, session 2 re-prompts on an empty line, is rejected on the
taken name "bob", and succeeds with the fresh name "carol". -/
theorem c5_name_selection_witness :
    (nameData c5wstate 2 "" = Except.ok (push c5wstate 2 "Please input your user name >")) ∧
    (nameData c5wstate 2 "bob" =
      Except.ok (push c5wstate 2 "Error: name exists.\nPlease input your user name>")) ∧
    (∃ st', nameData c5wstate 2 "carol" = Except.ok st' ∧
      st'.clientnames = c5wstate.clientnames ++ ["carol"] ∧
      usernameOf st' 2 = "carol" ∧
      logicOf st' 2 = some (LogicRef.roomL RoomRef.hall) ∧
      (∀ n, n ≠ "carol" → (n ∈ st'.clientnames ↔ n ∈ c5wstate.clientnames)) ∧
      (∀ q, q ≠ 2 → logicOf st' q = logicOf c5wstate q)) :=
  ⟨(c5_name_selection c5wstate 2 { username := "anonymous", logic := some LogicRef.nameMgr }
      "" (by decide) rfl).1 rfl,
   ((c5_name_selection c5wstate 2 { username := "anonymous", logic := some LogicRef.nameMgr }
      "bob" (by decide) rfl).2.1 (by decide) (by decide)).1,
   (c5_name_selection c5wstate 2 { username := "anonymous", logic := some LogicRef.nameMgr }
      "carol" (by decide) rfl).2.2 (by decide) (by decide)⟩

/-- C4 counterexample: the Name Directory is not safe across sessions sharing a display
name — session 1 registered "anonymous", and disconnecting the fresh session 2 (whose
default display name is also "anonymous") removes session 1's entry from the directory
while session 1 is still connected. -/
theorem c4_counterexample :
    Reach c4pre ∧ Reach c4state ∧
    step c4pre (Ev.disconnect 2) = Except.ok c4state ∧
    "anonymous" ∈ c4pre.clientnames ∧
    usernameOf c4pre 1 = "anonymous" ∧
    logicOf c4state 1 = some (LogicRef.roomL RoomRef.hall) ∧
    usernameOf c4state 1 = "anonymous" ∧
    "anonymous" ∉ c4state.clientnames :=
  ⟨c4pre_reach, c4state_reach, by decide, by decide, by decide, by decide, by decide, by decide⟩

/-- C4 (amended): disconnecting a session removes exactly its own current display name
from the Name Directory — the name is free the instant its holder disconnects, and a
name registered by a different session survives unless it equals the disconnecting
session's display name (as happens with the default name "anonymous"). -/
theorem c4_name_release : ∀ (st : ServerState) (sid : Nat) (s : SessionSt),
    Reach st → alookup sid st.sessions = some s →
    ∃ st', change_logic st sid none = Except.ok st' ∧
      st'.clientnames = removeFirst (usernameOf st sid) st.clientnames ∧
      usernameOf st sid ∉ st'.clientnames ∧
      (∀ n, n ≠ usernameOf st sid → (n ∈ st'.clientnames ↔ n ∈ st.clientnames)) ∧
      st'.allsessions = removeFirst sid st.allsessions := by
  intro st sid s hr hs
  have hInv := reach_inv st hr
  have hndc := hInv.2.2.2.1
  obtain ⟨st', hok, _, _, _, _, _, _, _, hquit, _, _⟩ :=
    change_logic_spec st sid none s hs hInv (fun n hh => nomatch hh)
  obtain ⟨hcn, has⟩ := hquit rfl
  refine ⟨st', hok, hcn, ?_, ?_, has⟩
  · rw [hcn]
    exact not_mem_removeFirst_of_nodup _ hndc
  · intro n hn
    rw [hcn]
    exact mem_removeFirst_of_ne hn st.clientnames

/-- C4 witness: in `c4mid` (session 1 named "anonymous" in the hall) disconnecting
session 1 frees exactly "anonymous". -/
theorem c4_name_release_witness :
    ∃ st', change_logic c4mid 1 none = Except.ok st' ∧
      st'.clientnames = removeFirst (usernameOf c4mid 1) c4mid.clientnames ∧
      usernameOf c4mid 1 ∉ st'.clientnames ∧
      (∀ n, n ≠ usernameOf c4mid 1 → (n ∈ st'.clientnames ↔ n ∈ c4mid.clientnames)) ∧
      st'.allsessions = removeFirst 1 c4mid.allsessions :=
  c4_name_release c4mid 1
    { username := "anonymous", logic := some (LogicRef.roomL RoomRef.hall) }
    c4mid_reach (by decide)

/-- C3 counterexample: handling a single line can terminate the connection — in the
reachable state `c3state`, the line "/addroom" (recognized action, missing argument)
raises IndexError out of the handler instead of producing an error line. -/
theorem c3_counterexample :
    Reach c3state ∧
    submit_line c3state 1 "/addroom" = Except.error PyExn.indexError ∧
    submit_line c3state 1 "/gotoroom" = Except.error PyExn.indexError ∧
    submit_line c3state 1 "/delroom" = Except.error PyExn.indexError :=
  ⟨c3state_reach, by decide, by decide, by decide⟩

/-- C3 (amended): each of the four errors (UnknownAction, NameInUse, RoomNotFound,
RoomNotEmpty) produces exactly one explanatory line pushed to the issuing session with
the session's Logic and room membership unchanged, and a line that matches no known form
is handled as a chat message or an UnknownAction error — except that a recognized
`/addroom`, `/gotoroom` or `/delroom` whose required argument is missing raises
IndexError out of the handler, terminating the connection. -/
theorem c3_errors_recovered : ∀ (st : ServerState) (r : RoomRef) (sid : Nat),
    (∀ data action rest, data ≠ "" → data.data.head? = some '/' →
      pySplitSpace (String.mk data.data.tail) 5 = action :: rest →
      knownAction action = false →
      roomData st r sid data =
        Except.ok (push st sid ("Error: unknown action: " ++ action ++ "\n"))) ∧
    (∀ n rest, alookup n st.rooms = none →
      do_gotoroom st r sid (n :: rest) =
        Except.ok (push st sid "Error: no such room.\n")) ∧
    (∀ n rest, alookup n st.rooms = none →
      do_delroom st r sid (n :: rest) =
        Except.ok (push st sid ("Error: no such room \"" ++ n ++ "\"\n"))) ∧
    (∀ n rest l, alookup n st.rooms = some l → l ≠ [] →
      do_delroom st r sid (n :: rest) =
        Except.ok (push st sid ("Error: room \"" ++ n ++ "\" is not empty, can not delete it\n"))) ∧
    (∀ data, data ≠ "" → data ∈ st.clientnames →
      nameData st sid data =
        Except.ok (push st sid "Error: name exists.\nPlease input your user name>")) ∧
    (∀ m q rr, logicOf (push st sid m) q = logicOf st q ∧
      roomMembers (push st sid m) rr = roomMembers st rr) ∧
    (∀ a, (a = "addroom" ∨ a = "gotoroom" ∨ a = "delroom") →
      roomData st r sid ("/" ++ a) = Except.error PyExn.indexError) := by
  intro st r sid
  refine ⟨?_, ?_, ?_, ?_, ?_, ?_, ?_⟩
  · intro data action rest h0 h1 hsplit hunk
    have hrd : roomData st r sid data = dispatchAction st r sid action rest := by
      rw [roomData, if_neg h0, if_pos h1, hsplit]
    rw [hrd]
    unfold dispatchAction
    have k1 : action ≠ "quit" := fun hh => by rw [hh] at hunk; exact nomatch hunk
    have k2 : action ≠ "who" := fun hh => by rw [hh] at hunk; exact nomatch hunk
    have k3 : action ≠ "addroom" := fun hh => by rw [hh] at hunk; exact nomatch hunk
    have k4 : action ≠ "gotoroom" := fun hh => by rw [hh] at hunk; exact nomatch hunk
    have k5 : action ≠ "delroom" := fun hh => by rw [hh] at hunk; exact nomatch hunk
    have k6 : action ≠ "roomlist" := fun hh => by rw [hh] at hunk; exact nomatch hunk
    have k7 : action ≠ "hall" := fun hh => by rw [hh] at hunk; exact nomatch hunk
    have k8 : action ≠ "help" := fun hh => by rw [hh] at hunk; exact nomatch hunk
    rw [if_neg k1, if_neg k2, if_neg k3, if_neg k4, if_neg k5, if_neg k6, if_neg k7,
      if_neg k8]
  · intro n rest hx
    rw [do_gotoroom, hx]
  · intro n rest hx
    rw [do_delroom, hx]
  · intro n rest l hx hl
    rw [do_delroom]
    simp only [hx]
    rw [if_neg hl]
  · intro data h0 h1
    rw [nameData, if_neg h0, if_pos h1]
  · intro m q rr
    exact ⟨rfl, by simp⟩
  · intro a ha
    rcases ha with h | h | h <;> rw [h] <;> rfl

/-- C3 witness: the unknown action "/xyz foo", the absent room, the occupied room, the
taken name, and the three argument-less commands, at concrete reachable states. -/
theorem c3_errors_recovered_witness :
    (roomData c6state RoomRef.hall 1 "/xyz foo" =
      Except.ok (push c6state 1 "Error: unknown action: xyz\n")) ∧
    (do_gotoroom c6state RoomRef.hall 1 ["nosuch"] =
      Except.ok (push c6state 1 "Error: no such room.\n")) ∧
    (do_delroom c6state2 (RoomRef.user "lounge") 1 ["lounge"] =
      Except.ok (push c6state2 1 "Error: room \"lounge\" is not empty, can not delete it\n")) ∧
    (nameData c5wstate 2 "bob" =
      Except.ok (push c5wstate 2 "Error: name exists.\nPlease input your user name>")) ∧
    (roomData c6state RoomRef.hall 1 "/addroom" = Except.error PyExn.indexError) :=
  ⟨(c3_errors_recovered c6state RoomRef.hall 1).1 "/xyz foo" "xyz" ["foo"]
      (by decide) (by decide) (by decide) (by decide),
   (c3_errors_recovered c6state RoomRef.hall 1).2.1 "nosuch" [] (by decide),
   (c3_errors_recovered c6state2 (RoomRef.user "lounge") 1).2.2.2.1 "lounge" [] [1]
      (by decide) (by decide),
   (c3_errors_recovered c5wstate RoomRef.hall 2).2.2.2.2.1 "bob" (by decide) (by decide),
   (c3_errors_recovered c6state RoomRef.hall 1).2.2.2.2.2.2 "addroom" (Or.inl rfl)⟩

theorem stateNotice_setRoomMembers (st : ServerState) (r : RoomRef) (l : List Nat)
    (sid : Nat) (s2 : String) :
    stateNotice (setRoomMembers st r l) sid s2 = stateNotice st sid s2 := by
  simp [stateNotice]

/-- C8: room enter appends the session to the member list, pushes the welcome line to the
entrant, then broadcasts the "enters room" notice to all members including the new one;
room leave removes the session and broadcasts the "leaves room" notice to the remaining
members (so not to the leaver); and in every reachable state a session bound to a room is
present in its member list, so the leave reaction is never invoked for an absent session. -/
theorem c8_room_enter_leave :
    (∀ st r sid, (∀ n, r = RoomRef.user n → (alookup n st.rooms).isSome = true) →
      roomMembers (roomEnter st r sid) r = roomMembers st r ++ [sid] ∧
      (roomEnter st r sid).output = st.output
        ++ [(sid, "Welcome to " ++ roomName st r ++ "\n")]
        ++ (roomMembers st r ++ [sid]).map
            (fun m => (m, stateNotice st sid "enters room" ++ "\n"))) ∧
    (∀ st r sid, List.count sid (roomMembers st r) = 1 →
      ∃ st', roomLeave st r sid = Except.ok st' ∧
        roomMembers st' r = removeFirst sid (roomMembers st r) ∧
        st'.output = st.output
          ++ (removeFirst sid (roomMembers st r)).map
              (fun m => (m, stateNotice st sid "leaves room" ++ "\n")) ∧
        sid ∉ removeFirst sid (roomMembers st r)) ∧
    (∀ st sid r, Reach st → logicOf st sid = some (LogicRef.roomL r) →
      sid ∈ roomMembers st r) := by
  refine ⟨?_, ?_, ?_⟩
  · intro st r sid hpres
    exact ⟨roomEnter_members_self st r sid hpres, roomEnter_output st r sid hpres⟩
  · intro st r sid hc1
    have hmem : sid ∈ roomMembers st r := mem_of_count_one hc1
    have hpres := roomPresent_of_mem hmem
    refine ⟨_, roomLeave_eq st r sid hmem, ?_, ?_, ?_⟩
    · simp only [broadcastUserState, roomMembers_broadcast]
      exact roomMembers_setRoomMembers_self st r _ hpres
    · simp only [broadcastUserState, broadcast_output, setRoomMembers_output]
      rw [roomMembers_setRoomMembers_self st r _ hpres, stateNotice_setRoomMembers]
    · rw [← List.count_eq_zero, count_removeFirst_self, hc1]
  · intro st sid r hr hlog
    have hcnt := (reach_inv st hr).1
    have hb : boundRoom st sid = some r := by
      simp [boundRoom, hlog]
    apply mem_of_count_one
    rw [hcnt sid r, hb]
    simp

/-- C8 witness: entering the hall of `c1state` appends session 2, and session 1 (alone in
the hall of `c3state`) leaves with a broadcast to nobody; session 1 of `c3state` is bound
to the hall and indeed a hall member. -/
theorem c8_room_enter_leave_witness :
    (roomMembers (roomEnter c1state RoomRef.hall 2) RoomRef.hall
        = roomMembers c1state RoomRef.hall ++ [2] ∧
      (roomEnter c1state RoomRef.hall 2).output = c1state.output
        ++ [(2, "Welcome to " ++ roomName c1state RoomRef.hall ++ "\n")]
        ++ (roomMembers c1state RoomRef.hall ++ [2]).map
            (fun m => (m, stateNotice c1state 2 "enters room" ++ "\n"))) ∧
    (∃ st', roomLeave c3state RoomRef.hall 1 = Except.ok st' ∧
      roomMembers st' RoomRef.hall = removeFirst 1 (roomMembers c3state RoomRef.hall) ∧
      st'.output = c3state.output
        ++ (removeFirst 1 (roomMembers c3state RoomRef.hall)).map
            (fun m => (m, stateNotice c3state 1 "leaves room" ++ "\n")) ∧
      1 ∉ removeFirst 1 (roomMembers c3state RoomRef.hall)) ∧
    1 ∈ roomMembers c3state RoomRef.hall :=
  ⟨c8_room_enter_leave.1 c1state RoomRef.hall 2 (fun n hh => nomatch hh),
   c8_room_enter_leave.2.1 c3state RoomRef.hall 1 (by decide),
   c8_room_enter_leave.2.2 c3state 1 RoomRef.hall c3state_reach (by decide)⟩

/-- C1: along every reachable run, each session's lifecycle trace replays in the
enter/leave protocol automaton to exactly its current binding — so on-leave fires exactly
once (on the currently bound Logic) before the on-enter of the replacement, for every
sequence of rebinds; and a single rebind appends exactly the leave event of the old
Logic followed by the enter event of the new one, or the quit notification when the new
Logic is None, in which case the Server releases the session's name from the directory
and removes it from the session set. -/
theorem c1_rebind_pairing :
    (∀ st, Reach st → ∀ sid, tracePlay (subtrace sid st.ltrace) = some (logicOf st sid)) ∧
    (∀ st sid s newl, Reach st → alookup sid st.sessions = some s →
      (∀ n, newl = some (LogicRef.roomL (RoomRef.user n)) →
        (alookup n st.rooms).isSome = true) →
      ∃ st', change_logic st sid newl = Except.ok st' ∧
        st'.ltrace = st.ltrace ++ leaveSeg sid (logicOf st sid) ++ [enterSeg sid newl] ∧
        logicOf st' sid = newl ∧
        (newl = none →
          st'.clientnames = removeFirst (usernameOf st sid) st.clientnames ∧
          st'.allsessions = removeFirst sid st.allsessions)) := by
  constructor
  · intro st hr sid
    exact (reach_inv st hr).2.2.2.2 sid
  · intro st sid s newl hr hs hnew
    obtain ⟨st', hok, _, hlg, _, _, _, _, _, hquit, _, hlt⟩ :=
      change_logic_spec st sid newl s hs (reach_inv st hr) hnew
    exact ⟨st', hok, hlt, hlg, hquit⟩

/-- C1 witness: the trace of `c4state` replays to each session's binding, and rebinding
session 1 of `c3state` to None appends its hall-leave and the quit notification while
releasing "bob" and dropping the session from the session set. -/
theorem c1_rebind_pairing_witness :
    (tracePlay (subtrace 1 c4state.ltrace) = some (logicOf c4state 1)) ∧
    (tracePlay (subtrace 2 c4state.ltrace) = some (logicOf c4state 2)) ∧
    (∃ st', change_logic c3state 1 none = Except.ok st' ∧
      st'.ltrace = c3state.ltrace ++ leaveSeg 1 (logicOf c3state 1) ++ [enterSeg 1 none] ∧
      logicOf st' 1 = none ∧
      (none = (none : Option LogicRef) →
        st'.clientnames = removeFirst (usernameOf c3state 1) c3state.clientnames ∧
        st'.allsessions = removeFirst 1 c3state.allsessions)) :=
  ⟨c1_rebind_pairing.1 c4state c4state_reach 1,
   c1_rebind_pairing.1 c4state c4state_reach 2,
   c1_rebind_pairing.2 c3state 1
     { username := "bob", logic := some (LogicRef.roomL RoomRef.hall) } none
     c3state_reach (by decide) (fun n hh => nomatch hh)⟩

end SimpleChat
